import Mathlib

/-!
Verification development for the skillforge-api research/roadmap services.

The JavaScript services are shallowly embedded: text is `List Char`, JS
numbers are `ℚ`, fallible JS computations are `Except` values (`JsResult`),
and the external effects (HTTP fetches, LLM chat calls, the DuckDuckGo
search provider) are passed in as explicit outcome parameters, so that every
execution of the embedded function corresponds to one execution of the
JavaScript function under those outcomes.
-/

set_option maxRecDepth 20000

/-- Text is modelled as a list of characters (JS strings are sequences of
code units; all the texts handled here are plain). -/
abbrev Str := List Char

/-- Converts a Lean string literal to the `Str` representation. -/
def lc (s : String) : Str := s.data

/-- Result of a JS computation that can throw: `.error` carries the message
of the thrown exception. -/
abbrev JsResult (α : Type) := Except Str α

/-- Models a JS `try { .. } catch (e) { .. }` block. -/
def jsTry {α : Type} (x : JsResult α) (handler : Str → JsResult α) : JsResult α :=
  match x with
  | .ok v => .ok v
  | .error e => handler e

/-- The backtick character (written via its code point). -/
def bq : Char := Char.ofNat 96

/-- The left-brace character (written via its code point). -/
def lbrace : Char := Char.ofNat 123

/-- The right-brace character (written via its code point). -/
def rbrace : Char := Char.ofNat 125

/-- Splits `cs` at the first occurrence of the pattern `pat`, returning the
part strictly before the match and the part strictly after it (the model of
leftmost regex matching used for literal patterns). -/
def splitFirst (pat : Str) : Str → Option (Str × Str)
  | [] => if pat.isEmpty then some ([], []) else none
  | c :: cs =>
    if pat.isPrefixOf (c :: cs) then some ([], (c :: cs).drop pat.length)
    else match splitFirst pat cs with
      | some (pre, post) => some (c :: pre, post)
      | none => none

/-- Tests whether `needle` occurs as a contiguous substring of `haystack`
(the model of JS `String.prototype.includes`). -/
def containsSub (haystack needle : Str) : Bool :=
  (splitFirst needle haystack).isSome

/-- JSON values as produced by `JSON.parse` (numbers are modelled as
rationals; object fields are kept in source order). -/
inductive Json where
  | null : Json
  | bool (b : Bool) : Json
  | num (q : ℚ) : Json
  | str (s : Str) : Json
  | arr (xs : List Json) : Json
  | obj (fields : List (Str × Json)) : Json

/-- JSON whitespace characters. -/
def isJsonWs (c : Char) : Bool :=
  c = ' ' || c = '\t' || c = '\n' || c = '\r'

/-- Whitespace characters for JS `\s` / `trim` purposes (the ASCII ones;
all texts in the claims are ASCII). -/
def isWsChar (c : Char) : Bool :=
  c = ' ' || c = '\t' || c = '\n' || c = '\r' || c = '\x0b' || c = '\x0c'

/-- Drops JSON whitespace from the front of the input. -/
def skipWs (cs : Str) : Str := cs.dropWhile isJsonWs

/-- Value of a decimal digit. -/
def digitVal (c : Char) : ℕ := c.toNat - '0'.toNat

/-- Reads a run of decimal digits, returning their value, their count and
the rest of the input. -/
def readDigits : Str → ℕ → ℕ → ℕ × ℕ × Str
  | [], acc, n => (acc, n, [])
  | c :: cs, acc, n =>
    if c.isDigit then readDigits cs (acc * 10 + digitVal c) (n + 1)
    else (acc, n, c :: cs)

/-- Parses a JSON number starting at the input (sign, integer part,
optional fraction, optional exponent), as `JSON.parse` accepts it. -/
def parseNumber (cs : Str) : Option (ℚ × Str) :=
  let (neg, cs₁) := match cs with
    | '-' :: rest => (true, rest)
    | rest => (false, rest)
  match cs₁ with
  | c :: _ =>
    if c.isDigit then
      let (ip, ic, cs₂) := readDigits cs₁ 0 0
      if ic = 0 then none else
      let (frac, fc, cs₃) := match cs₂ with
        | '.' :: rest =>
          let (f, n, r) := readDigits rest 0 0
          (f, n, r)
        | rest => (0, 0, rest)
      if cs₂ ≠ cs₃ ∧ fc = 0 then none else
      let (expOk, expNeg, ex, cs₄) := match cs₃ with
        | 'e' :: rest | 'E' :: rest =>
          let (sgn, rest₁) := match rest with
            | '-' :: r => (true, r)
            | '+' :: r => (false, r)
            | r => (false, r)
          let (e, n, r) := readDigits rest₁ 0 0
          (n != 0, sgn, e, r)
        | rest => (true, false, 0, rest)
      if !expOk then none else
      let mant : ℤ := (ip * 10 ^ fc + frac : ℕ)
      let num : ℤ := if expNeg then mant else mant * 10 ^ ex
      let den : ℕ := if expNeg then 10 ^ (fc + ex) else 10 ^ fc
      some (mkRat (if neg then -num else num) den, cs₄)
    else none
  | [] => none

/-- Value of a hexadecimal digit. -/
def hexVal (c : Char) : ℕ :=
  if c.isDigit then c.toNat - '0'.toNat
  else if 'a' ≤ c ∧ c ≤ 'f' then c.toNat - 'a'.toNat + 10
  else if 'A' ≤ c ∧ c ≤ 'F' then c.toNat - 'A'.toNat + 10
  else 0

/-- Tests for a hexadecimal digit. -/
def isHexDigit (c : Char) : Bool :=
  c.isDigit || ('a' ≤ c && c ≤ 'f') || ('A' ≤ c && c ≤ 'F')

/-- Parses the body of a JSON string (after the opening quote), handling
the escape sequences `JSON.parse` accepts and rejecting raw control
characters. -/
def parseStringBody : Str → Option (Str × Str)
  | [] => none
  | c :: cs =>
    if c = '"' then some ([], cs)
    else if c = '\\' then
      match cs with
      | [] => none
      | e :: cs' =>
        let simpleChar : Option Char :=
          if e = '"' then some '"'
          else if e = '\\' then some '\\'
          else if e = '/' then some '/'
          else if e = 'b' then some '\x08'
          else if e = 'f' then some '\x0c'
          else if e = 'n' then some '\n'
          else if e = 'r' then some '\r'
          else if e = 't' then some '\t'
          else none
        match simpleChar with
        | some d =>
          match parseStringBody cs' with
          | some (body, rest) => some (d :: body, rest)
          | none => none
        | none =>
          if e = 'u' then
            match cs' with
            | h₁ :: h₂ :: h₃ :: h₄ :: cs'' =>
              if isHexDigit h₁ ∧ isHexDigit h₂ ∧ isHexDigit h₃ ∧ isHexDigit h₄ then
                let code := ((hexVal h₁ * 16 + hexVal h₂) * 16 + hexVal h₃) * 16 + hexVal h₄
                match parseStringBody cs'' with
                | some (body, rest) => some (Char.ofNat code :: body, rest)
                | none => none
              else none
            | _ => none
          else none
    else if c.toNat < 32 then none
    else
      match parseStringBody cs with
      | some (body, rest) => some (c :: body, rest)
      | none => none

mutual

/-- Parses one JSON value (fuel-based recursive descent). -/
def parseValue : ℕ → Str → Option (Json × Str)
  | 0, _ => none
  | fuel + 1, cs =>
    match skipWs cs with
    | 'n' :: 'u' :: 'l' :: 'l' :: rest => some (.null, rest)
    | 't' :: 'r' :: 'u' :: 'e' :: rest => some (.bool true, rest)
    | 'f' :: 'a' :: 'l' :: 's' :: 'e' :: rest => some (.bool false, rest)
    | '"' :: rest =>
      match parseStringBody rest with
      | some (s, rest') => some (.str s, rest')
      | none => none
    | '[' :: rest =>
      (match skipWs rest with
       | ']' :: rest' => some (.arr [], rest')
       | _ =>
         match parseElems fuel rest with
         | some (xs, rest') => some (.arr xs, rest')
         | none => none)
    | c :: rest =>
      if c = lbrace then
        match skipWs rest with
        | d :: rest' =>
          if d = rbrace then some (.obj [], rest')
          else
            (match parseMembers fuel (d :: rest') with
             | some (fs, rest'') => some (.obj fs, rest'')
             | none => none)
        | [] => none
      else
        (match parseNumber (c :: rest) with
         | some (q, rest') => some (.num q, rest')
         | none => none)
    | [] => none

/-- Parses the comma-separated elements of a JSON array, up to and
including the closing bracket. -/
def parseElems : ℕ → Str → Option (List Json × Str)
  | 0, _ => none
  | fuel + 1, cs =>
    match parseValue fuel cs with
    | some (v, rest) =>
      (match skipWs rest with
       | ',' :: rest' =>
         (match parseElems fuel rest' with
          | some (vs, rest'') => some (v :: vs, rest'')
          | none => none)
       | ']' :: rest' => some ([v], rest')
       | _ => none)
    | none => none

/-- Parses the comma-separated members of a JSON object, up to and
including the closing brace. -/
def parseMembers : ℕ → Str → Option (List (Str × Json) × Str)
  | 0, _ => none
  | fuel + 1, cs =>
    match skipWs cs with
    | '"' :: rest =>
      (match parseStringBody rest with
       | some (key, rest') =>
         (match skipWs rest' with
          | ':' :: rest'' =>
            (match parseValue fuel rest'' with
             | some (v, rest''') =>
               (match skipWs rest''' with
                | ',' :: r =>
                  (match parseMembers fuel r with
                   | some (fs, r') => some ((key, v) :: fs, r')
                   | none => none)
                | d :: r => if d = rbrace then some ([(key, v)], r) else none
                | [] => none)
             | none => none)
          | _ => none)
       | none => none)
    | _ => none

end

/-- Model of `JSON.parse`: parses the whole input (surrounding whitespace
allowed), returning `none` where `JSON.parse` throws a `SyntaxError`. -/
def JSONParse (cs : Str) : Option Json :=
  match parseValue (4 * cs.length + 8) cs with
  | some (v, rest) => if (skipWs rest).isEmpty then some v else none
  | none => none

example : JSONParse (lc "[1, 2]") = some (.arr [.num 1, .num 2]) := rfl
example : JSONParse (lc " \x7b\"a\": -1.5e1, \"b\": [true, null]\x7d ") =
    some (.obj [(lc "a", .num (-15)), (lc "b", .arr [.bool true, .null])]) := rfl
example : JSONParse (lc "\"x\\n\"") = some (.str ['x', '\n']) := rfl
example : JSONParse (lc "") = none := rfl
example : JSONParse (lc "\x7b") = none := rfl

/-! ## JS string helpers shared by the service models -/

/-- The apostrophe character (written via its code point). -/
def apos : Char := Char.ofNat 39

/-- Model of JS `String.prototype.trim` (ASCII whitespace). -/
def trimStr (cs : Str) : Str :=
  ((cs.dropWhile isWsChar).reverse.dropWhile isWsChar).reverse

/-- Maps a function over a list together with the element's index, the model
of JS `Array.prototype.map((x, i) => ..)`. -/
def mapWithIndex {α β : Type} (f : ℕ → α → β) : ℕ → List α → List β
  | _, [] => []
  | i, x :: xs => f i x :: mapWithIndex f (i + 1) xs

/-- Characters matched by the identifier class `[a-zA-Z0-9_$]` of the
cleanup regexes. -/
def isIdentChar (c : Char) : Bool :=
  c.isAlpha || c.isDigit || c = '_' || c = '$'

/-! ## Model of `extractJSON` (`src/services/llmClient.js`)

The code-block extraction and the repair tiers operate on plain text; each
regex substitution of `cleanupJSON` / `deepCleanJSON` is modelled as a
linear character-level pass with the same effect on the texts it is
applied to. -/

/-- Capture of the triple-backtick code-fence regex: text strictly between
the first ` ``` ` (with an optional case-insensitive `json` tag) and the
next ` ``` `. -/
def tripleCapture (cs : Str) : Option Str :=
  match splitFirst [bq, bq, bq] cs with
  | none => none
  | some (_, rest) =>
    let rest' := if (rest.take 4).map Char.toLower = lc "json" then rest.drop 4 else rest
    match splitFirst [bq, bq, bq] rest' with
    | none => none
    | some (cap, _) => some cap

/-- Capture of the single-backtick regex: text strictly between the first
backtick and the next one. -/
def singleCapture (cs : Str) : Option Str :=
  match splitFirst [bq] cs with
  | none => none
  | some (_, rest) =>
    match splitFirst [bq] rest with
    | none => none
    | some (cap, _) => some cap

/-- Code-block extraction step of `extractJSON`: a truthy (non-empty)
triple-backtick capture wins, else a truthy single-backtick capture, else
the original text. -/
def extractContent (cs : Str) : Str :=
  let single : Str :=
    match singleCapture cs with
    | some cap => if cap.isEmpty then cs else trimStr cap
    | none => cs
  match tripleCapture cs with
  | some cap => if cap.isEmpty then single else trimStr cap
  | none => single

/-- Model of the substitution `,\s*([}\]])` → `$1`: drops a comma standing
(up to whitespace) directly before a closing brace or bracket. -/
def removeTrailingCommas : Option Str → Str → Str
  | none, [] => []
  | some ws, [] => ',' :: ws.reverse
  | none, c :: cs =>
    if c = ',' then removeTrailingCommas (some []) cs
    else c :: removeTrailingCommas none cs
  | some ws, c :: cs =>
    if isWsChar c then removeTrailingCommas (some (c :: ws)) cs
    else if c = rbrace ∨ c = ']' then c :: removeTrailingCommas none cs
    else if c = ',' then ',' :: ws.reverse ++ removeTrailingCommas (some []) cs
    else ',' :: ws.reverse ++ (c :: removeTrailingCommas none cs)

/-- Model of the substitution `\.\.\.+` → `""`: a run of three or more dots
becomes a pair of double quotes. -/
def fixEllipsis (pending : ℕ) : Str → Str
  | [] => if 3 ≤ pending then ['"', '"'] else List.replicate pending '.'
  | c :: cs =>
    if c = '.' then fixEllipsis (pending + 1) cs
    else (if 3 ≤ pending then ['"', '"'] else List.replicate pending '.') ++
      c :: fixEllipsis 0 cs

/-- Model of the substitution `([{,]\s*)([a-zA-Z0-9_$]+)\s*:` →
`$1"$2":`: wraps an unquoted key that follows an opening brace or a comma
in double quotes (fuel-based scan; the flag records whether a key may start
here). -/
def quoteKeysF : ℕ → Bool → Str → Str
  | 0, _, cs => cs
  | _ + 1, _, [] => []
  | fuel + 1, expect, c :: cs =>
    if c = lbrace ∨ c = ',' then c :: quoteKeysF fuel true cs
    else if expect ∧ isWsChar c then c :: quoteKeysF fuel true cs
    else if expect ∧ isIdentChar c then
      let ident := (c :: cs).takeWhile isIdentChar
      let rest := (c :: cs).dropWhile isIdentChar
      match rest.dropWhile isWsChar with
      | d :: tail =>
        if d = ':' then '"' :: ident ++ '"' :: ':' :: quoteKeysF fuel false tail
        else c :: quoteKeysF fuel false cs
      | [] => c :: quoteKeysF fuel false cs
    else c :: quoteKeysF fuel false cs

/-- Model of the substitution `(?<!\\)'` → `"`: replaces a single quote not
preceded by a backslash with a double quote (the argument carries the
previous character). -/
def singleToDouble : Option Char → Str → Str
  | _, [] => []
  | prev, c :: cs =>
    (if c = apos ∧ prev ≠ some '\\' then '"' else c) :: singleToDouble (some c) cs

/-- Model of the substitution `(\[\s*|,\s*)\s*,\s*([\]\}])` → `$1$2`:
after an opening bracket or comma, a further comma standing (up to
whitespace) before a closer is dropped together with the surrounding
whitespace. -/
def fixArrayTrailing : ℕ → Str → Str
  | 0, cs => cs
  | _ + 1, [] => []
  | fuel + 1, c :: cs =>
    if c = '[' ∨ c = ',' then
      let ws₁ := cs.takeWhile isWsChar
      let rest₁ := cs.dropWhile isWsChar
      match rest₁ with
      | ',' :: rest₂ =>
        let rest₃ := rest₂.dropWhile isWsChar
        match rest₃ with
        | d :: _ =>
          if d = ']' ∨ d = rbrace then c :: ws₁ ++ fixArrayTrailing fuel rest₃
          else c :: fixArrayTrailing fuel cs
        | [] => c :: fixArrayTrailing fuel cs
      | _ => c :: fixArrayTrailing fuel cs
    else c :: fixArrayTrailing fuel cs

/-- Model of the substitutions `}\s*{` → `}, {` and `]\s*\[` → `], [`:
inserts a comma between back-to-back closers and openers. -/
def fixAdjacent (closeC openC : Char) : ℕ → Str → Str
  | 0, cs => cs
  | _ + 1, [] => []
  | fuel + 1, c :: cs =>
    if c = closeC then
      let rest := cs.dropWhile isWsChar
      match rest with
      | d :: _ =>
        if d = openC then c :: ',' :: ' ' :: fixAdjacent closeC openC fuel rest
        else c :: fixAdjacent closeC openC fuel cs
      | [] => c :: fixAdjacent closeC openC fuel cs
    else c :: fixAdjacent closeC openC fuel cs

/-- Splits a (trimmed) text into its whitespace-separated words, the model
of `split(/\s+/)` on a trimmed string. -/
def splitWsWords : ℕ → Str → List Str
  | 0, _ => []
  | _ + 1, [] => []
  | fuel + 1, cs =>
    let word := cs.takeWhile (fun c => ¬ isWsChar c)
    let rest := (cs.dropWhile (fun c => ¬ isWsChar c)).dropWhile isWsChar
    if word.isEmpty then splitWsWords fuel rest else word :: splitWsWords fuel rest

/-- Model of the array-item comma fixes applied inside innermost bracket
pairs: inserts `, ` between two quoted strings, after `true`/`false`, and
after a digit run, when only whitespace separates them from the next item
(a linear pass standing for the source's `arrayRegex` loop). -/
def arrContentFix : ℕ → Str → Str
  | 0, cs => cs
  | _ + 1, [] => []
  | fuel + 1, c :: cs =>
    if c = '"' ∨ c = apos then
      let ws := cs.takeWhile isWsChar
      let rest := cs.dropWhile isWsChar
      match rest with
      | d :: _ =>
        if (d = '"' ∨ d = apos) ∧ ¬ ws.isEmpty then c :: ',' :: ' ' :: arrContentFix fuel rest
        else c :: arrContentFix fuel cs
      | [] => c :: arrContentFix fuel cs
    else if c.isDigit then
      let digits := (c :: cs).takeWhile Char.isDigit
      let afterDigits := (c :: cs).dropWhile Char.isDigit
      let ws := afterDigits.takeWhile isWsChar
      let rest := afterDigits.dropWhile isWsChar
      match rest with
      | d :: _ =>
        if (d = lbrace ∨ d = '[' ∨ d = '"' ∨ d = apos ∨ d = 't' ∨ d = 'f' ∨ d.isDigit) ∧
            ¬ ws.isEmpty then
          digits ++ ',' :: ' ' :: arrContentFix fuel rest
        else digits ++ arrContentFix fuel afterDigits
      | [] => digits ++ arrContentFix fuel afterDigits
    else if (lc "true").isPrefixOf (c :: cs) ∨ (lc "false").isPrefixOf (c :: cs) then
      let w := if (lc "true").isPrefixOf (c :: cs) then lc "true" else lc "false"
      let afterW := (c :: cs).drop w.length
      let ws := afterW.takeWhile isWsChar
      let rest := afterW.dropWhile isWsChar
      match rest with
      | d :: _ =>
        if (d = lbrace ∨ d = '[' ∨ d = '"' ∨ d = apos ∨ d = 't' ∨ d = 'f') ∧ ¬ ws.isEmpty then
          w ++ ',' :: ' ' :: arrContentFix fuel rest
        else w ++ arrContentFix fuel afterW
      | [] => w ++ arrContentFix fuel afterW
    else c :: arrContentFix fuel cs

/-- Applies `arrContentFix` to the contents of innermost `[..]` pairs. -/
def fixInnerArrays : ℕ → Str → Str
  | 0, cs => cs
  | _ + 1, [] => []
  | fuel + 1, c :: cs =>
    if c = '[' then
      let inner := cs.takeWhile (fun d => ¬ (d = '[' ∨ d = ']'))
      let rest := cs.drop inner.length
      match rest with
      | ']' :: tail =>
        '[' :: arrContentFix (inner.length + 1) inner ++ ']' :: fixInnerArrays fuel tail
      | _ => c :: fixInnerArrays fuel cs
    else c :: fixInnerArrays fuel cs

/-- Model of `cleanupJSON`: the sequence of repair substitutions applied by
the source, in source order. -/
def cleanupJSON (cs : Str) : Str :=
  let s₁ := removeTrailingCommas none cs
  let s₂ := fixEllipsis 0 s₁
  let s₃ := quoteKeysF (s₂.length + 1) false s₂
  let s₄ := singleToDouble none s₃
  let s₅ := fixArrayTrailing (s₄.length + 1) s₄
  let s₆ := fixAdjacent rbrace lbrace (s₅.length + 1) s₅
  let s₇ := fixAdjacent ']' '[' (s₆.length + 1) s₆
  fixInnerArrays (s₇.length + 1) s₇

/-- Strips quote characters from an item, the model of
`item.replace(/["']/g, '')`. -/
def stripQuotes (cs : Str) : Str :=
  cs.filter (fun c => ¬ (c = '"' ∨ c = apos))

/-- Joins a list of words as quoted, comma-separated array items. -/
def joinArrayItems : List Str → Str
  | [] => []
  | [w] => '"' :: stripQuotes w ++ ['"']
  | w :: ws => '"' :: stripQuotes w ++ '"' :: ',' :: ' ' :: joinArrayItems ws

/-- Model of the `fixArrays` step of `deepCleanJSON`: a quoted key whose
bare (unbracketed) value consists of several whitespace-separated words is
rewritten into a quoted array of those words. -/
def fixBareArrays : ℕ → Str → Str
  | 0, cs => cs
  | _ + 1, [] => []
  | fuel + 1, c :: cs =>
    if c = '"' then
      let ident := cs.takeWhile isIdentChar
      let rest := cs.drop ident.length
      match rest with
      | '"' :: rest₁ =>
        let ws₁ := rest₁.takeWhile isWsChar
        let rest₂ := rest₁.dropWhile isWsChar
        match rest₂ with
        | ':' :: rest₃ =>
          let ws₂ := rest₃.takeWhile isWsChar
          let rest₄ := rest₃.dropWhile isWsChar
          match rest₄ with
          | v :: _ =>
            if v = '[' ∨ v = lbrace ∨ ident.isEmpty then
              c :: ident ++ '"' :: fixBareArrays fuel rest₁
            else
              let value := rest₄.takeWhile (fun d => ¬ (d = ',' ∨ d = rbrace ∨ d = ']'))
              let after := rest₄.drop value.length
              match after with
              | a :: _ =>
                if (a = ',' ∨ a = rbrace) ∧
                    1 < (splitWsWords (value.length + 1) (trimStr value)).length ∧
                    ¬ containsSub value ['['] ∧ ¬ containsSub value [lbrace] then
                  '"' :: ident ++ '"' :: ':' :: ' ' :: '[' ::
                    joinArrayItems (splitWsWords (value.length + 1) (trimStr value)) ++
                    ']' :: fixBareArrays fuel after
                else c :: ident ++ '"' :: ws₁ ++ ':' :: ws₂ ++ value ++ fixBareArrays fuel after
              | [] => c :: fixBareArrays fuel cs
          | [] => c :: fixBareArrays fuel cs
        | _ => c :: fixBareArrays fuel cs
      | _ => c :: fixBareArrays fuel cs
    else c :: fixBareArrays fuel cs

/-- Model of the `balanceBrackets` step of `deepCleanJSON`: appends missing
closing braces/brackets; with more closers than openers the input is
returned unchanged. -/
def balanceBrackets (cs : Str) : Str :=
  let ob := cs.count lbrace
  let cb := cs.count rbrace
  let obr := cs.count '['
  let cbr := cs.count ']'
  if ob < cb ∨ obr < cbr then cs
  else cs ++ List.replicate (ob - cb) rbrace ++ List.replicate (obr - cbr) ']'

/-- Model of `deepCleanJSON`: standard cleanup, then bare-array fixing,
then bracket balancing. -/
def deepCleanJSON (cs : Str) : Str :=
  let s₁ := cleanupJSON cs
  let s₂ := fixBareArrays (s₁.length + 1) s₁
  balanceBrackets s₂

/-- Model of a `JSON.parse` call as a throwing JS computation. -/
def jsonParseJs (cs : Str) : JsResult Json :=
  match JSONParse cs with
  | some v => .ok v
  | none => .error (lc "SyntaxError: Unexpected token in JSON")

/-- Extraction of tier 4: the first `{`-to-`}` region of the original
text, the model of matching `/{[\s\S]*?}/`. -/
def braceRegion (cs : Str) : Option Str :=
  match splitFirst [lbrace] cs with
  | none => none
  | some (_, rest) =>
    match splitFirst [rbrace] rest with
    | none => none
    | some (inner, _) => some (lbrace :: inner ++ [rbrace])

/-- Tests whether the text contains `new` followed by whitespace and
`Function` (the `new\s+Function` alternative of the tier-5 safety
regex). -/
def hasNewFunction : ℕ → Str → Bool
  | 0, _ => false
  | fuel + 1, cs =>
    match splitFirst (lc "new") cs with
    | none => false
    | some (_, rest) =>
      (!(rest.takeWhile isWsChar).isEmpty &&
        (lc "Function").isPrefixOf (rest.dropWhile isWsChar)) ||
      hasNewFunction fuel rest

/-- Shape test of tier 5: the regex `^\s*\{[\s\S]*\}\s*$`. -/
def looksLikeObject (cs : Str) : Bool :=
  match trimStr cs with
  | c :: rest =>
    c = lbrace &&
      (match rest.getLast? with
       | some d => d = rbrace
       | none => false)
  | [] => false

/-- Safety test of tier 5: none of the forbidden code words occur. -/
def tier5Safe (cs : Str) : Bool :=
  !(containsSub cs (lc "function") || containsSub cs (lc "eval") ||
    containsSub cs (lc "setTimeout") || containsSub cs (lc "setInterval") ||
    hasNewFunction (cs.length + 1) cs)

/-- Repair of tier 5: quote keys, single to double quotes, drop trailing
commas (in that source order). -/
def tier5Clean (cs : Str) : Str :=
  removeTrailingCommas none (singleToDouble none (quoteKeysF (cs.length + 1) false cs))

/-- Tier 5 of `extractJSON`, including its shape and safety guards. -/
def tier5Result (jsonContent : Str) : JsResult (Option Json) :=
  if looksLikeObject jsonContent && tier5Safe jsonContent then
    match jsonParseJs (tier5Clean jsonContent) with
    | .ok v => .ok (some v)
    | .error _ => .ok none
  else .ok none

/-- Parse tiers 1-5 of `extractJSON` on the extracted content (`cs` is the
original text, used by tier 4), each failure falling through to the next. -/
def extractTiers (cs jsonContent : Str) : JsResult (Option Json) :=
  match jsonParseJs jsonContent with
  | .ok v => .ok (some v)
  | .error _ =>
    match jsonParseJs (cleanupJSON jsonContent) with
    | .ok v => .ok (some v)
    | .error _ =>
      match jsonParseJs (deepCleanJSON jsonContent) with
      | .ok v => .ok (some v)
      | .error _ =>
        match braceRegion cs with
        | some region =>
          (match jsonParseJs (deepCleanJSON region) with
           | .ok v => .ok (some v)
           | .error _ => tier5Result jsonContent)
        | none => tier5Result jsonContent

/-- Model of `extractJSON`: null/empty guard, code-block extraction, then
the five parse tiers, the whole body guarded by the outer `try`/`catch`
that returns `null`. -/
def extractJSONJs (text : Option Str) : JsResult (Option Json) :=
  match text with
  | none => .ok none
  | some cs =>
    if cs.isEmpty then .ok none
    else jsTry (extractTiers cs (extractContent cs)) (fun _ => .ok none)

/-- Total projection of `extractJSON` (the function never throws, as
proved below): the parsed value, or `none` for the JS `null`. -/
def extractJSONPure (text : Option Str) : Option Json :=
  match extractJSONJs text with
  | .ok v => v
  | .error _ => none

example : extractJSONJs (some (lc "[1, 2]")) = .ok (some (.arr [.num 1, .num 2])) := rfl
example : extractJSONJs (some (lc "not json at all")) = .ok none := rfl
example : extractJSONJs (some (lc "x \x7b\"a\": 3\x7d y")) =
    .ok (some (.obj [(lc "a", .num 3)])) := rfl

/-! ## Model of `performWebSearch` / `getCuratedSources`
(`src/services/researchAgentService.js`) -/

/-- JS truthiness of an optional string field (absent or empty is falsy). -/
def truthyOptStr (o : Option Str) : Bool :=
  match o with
  | some s => !s.isEmpty
  | none => false

/-- ASCII lower-casing, the model of `String.prototype.toLowerCase` on the
texts involved. -/
def toLowerStr (cs : Str) : Str := cs.map Char.toLower

/-- One search result record. -/
structure SearchResult where
  title : Str
  url : Str
  snippet : Str
  source : Str
  relevanceScore : Option ℚ
deriving DecidableEq

/-- A DuckDuckGo related topic, as read from the provider response. -/
structure RelatedTopic where
  firstURL : Option Str
  text : Option Str
deriving DecidableEq

/-- The fields of the DuckDuckGo Instant Answer response that the code
reads. -/
structure DDGData where
  abstractText : Option Str
  abstractURL : Option Str
  heading : Option Str
  abstractSource : Option Str
  relatedTopics : List RelatedTopic
deriving DecidableEq

/-- A curated source entry (title, url, snippet, source, score). -/
def curatedEntry (t u s src : String) (q : ℚ) : SearchResult :=
  { title := lc t, url := lc u, snippet := lc s, source := lc src, relevanceScore := some q }

/-- Model of `getCuratedSources`: keyword-triggered curated entries, in
source order. -/
def getCuratedSources (query : Str) : List SearchResult :=
  let q := toLowerStr query
  (if containsSub q (lc "javascript") || containsSub q (lc "js") then
    [curatedEntry "MDN JavaScript Guide"
        "https://developer.mozilla.org/en-US/docs/Web/JavaScript/Guide"
        "Comprehensive JavaScript guide covering fundamentals to advanced topics"
        "MDN" (95/100),
     curatedEntry "JavaScript.info Modern Tutorial" "https://javascript.info/"
        "Modern JavaScript tutorial covering ES6+, async programming, and best practices"
        "JavaScript.info" (9/10)]
   else []) ++
  (if containsSub q (lc "python") then
    [curatedEntry "Python Official Tutorial" "https://docs.python.org/3/tutorial/"
        "Official Python tutorial covering syntax, data structures, and standard library"
        "Python.org" (95/100),
     curatedEntry "Real Python Learning Path" "https://realpython.com/learning-paths/"
        "Structured learning paths for Python development from beginner to advanced"
        "Real Python" (9/10)]
   else []) ++
  (if containsSub q (lc "data science") || containsSub q (lc "machine learning") then
    [curatedEntry "Coursera Data Science Specialization"
        "https://www.coursera.org/specializations/jhu-data-science"
        "Johns Hopkins Data Science specialization covering R, statistics, and machine learning"
        "Coursera" (9/10),
     curatedEntry "Kaggle Learn" "https://www.kaggle.com/learn"
        "Free micro-courses on data science, machine learning, and AI topics"
        "Kaggle" (85/100)]
   else []) ++
  (if containsSub q (lc "react") || containsSub q (lc "frontend") then
    [curatedEntry "React Official Documentation" "https://react.dev/learn"
        "Official React documentation with interactive examples and best practices"
        "React.dev" (95/100),
     curatedEntry "Frontend Masters Learning Paths" "https://frontendmasters.com/learn/"
        "Structured learning paths for frontend development and modern frameworks"
        "Frontend Masters" (85/100)]
   else []) ++
  (if containsSub q (lc "leadership") || containsSub q (lc "management") then
    [curatedEntry "Harvard Business Review Leadership" "https://hbr.org/topic/leadership"
        "Leadership insights, case studies, and management best practices"
        "Harvard Business Review" (9/10),
     curatedEntry "LinkedIn Learning Leadership Courses"
        "https://www.linkedin.com/learning/topics/leadership"
        "Professional leadership development courses and skill assessments"
        "LinkedIn Learning" (8/10)]
   else [])

/-- The instant-answer entry built from a truthy abstract, with the
`Heading || query` and `AbstractSource || 'DuckDuckGo'` fallbacks. -/
def ddgAbstractEntry (d : DDGData) (query : Str) : Option SearchResult :=
  if truthyOptStr d.abstractText && truthyOptStr d.abstractURL then
    some
      { title := if truthyOptStr d.heading then d.heading.getD [] else query
      , url := d.abstractURL.getD []
      , snippet := d.abstractText.getD []
      , source := if truthyOptStr d.abstractSource then d.abstractSource.getD []
                  else lc "DuckDuckGo"
      , relevanceScore := some (9/10) }
  else none

/-- The entry built from one related topic when both `FirstURL` and `Text`
are truthy: the title is the segment before the first `' - '`, with
`substring(0, 100)` as fallback for an empty segment. -/
def ddgTopicEntry (t : RelatedTopic) : Option SearchResult :=
  if truthyOptStr t.firstURL && truthyOptStr t.text then
    let txt := t.text.getD []
    let seg := match splitFirst (lc " - ") txt with
      | some (pre, _) => pre
      | none => txt
    some
      { title := if seg.isEmpty then txt.take 100 else seg
      , url := t.firstURL.getD []
      , snippet := txt
      , source := lc "Wikipedia"
      , relevanceScore := some (7/10) }
  else none

/-- The result list built inside the `try` block of `performWebSearch`
from a provider response: instant answer, then sliced related topics, then
curated sources when fewer than 3 results, finally sliced to the limit. -/
def performWebSearchOk (d : DDGData) (query : Str) (n : ℕ) : List SearchResult :=
  let r₀ := match ddgAbstractEntry d query with
    | some e => [e]
    | none => []
  let r₁ := r₀ ++ (d.relatedTopics.take (n - r₀.length)).filterMap ddgTopicEntry
  let r₂ := if r₁.length < 3 then r₁ ++ (getCuratedSources query).take (n - r₁.length) else r₁
  r₂.take n

/-- Model of `performWebSearch`: the provider call outcome is explicit;
any thrown error is caught and replaced by the curated sources. -/
def performWebSearch (outcome : JsResult DDGData) (query : Str) (n : ℕ) :
    JsResult (List SearchResult) :=
  jsTry
    (match outcome with
     | .ok d => .ok (performWebSearchOk d query n)
     | .error e => .error e)
    (fun _ => .ok (getCuratedSources query))

/-- Total projection of `performWebSearch` (the function never throws). -/
def performWebSearchPure (outcome : JsResult DDGData) (query : Str) (n : ℕ) :
    List SearchResult :=
  match performWebSearch outcome query n with
  | .ok rs => rs
  | .error _ => []

/-! ## Model of `scrapeAndSummarize` / `summarizeContent`
(`src/services/researchAgentService.js`)

The DOM-dependent part (axios fetch, cheerio selectors) is abstracted as a
fetch outcome carrying the extracted body text and the extracted `h1`-`h4`
headers; the summarization LLM call is an explicit outcome. The `scrapedAt`
timestamp is not modelled (no claim concerns it). -/

/-- An extracted page header (level from the tag name, raw text). -/
structure PageHeader where
  level : ℕ
  text : Str
deriving DecidableEq

/-- The content extracted from a successfully fetched page. -/
structure Page where
  body : Str
  headers : List PageHeader
deriving DecidableEq

/-- The `ScrapedContent` record. -/
structure ScrapedContent where
  url : Str
  title : Str
  content : Str
  summary : Str
  headers : List PageHeader
  wordCount : ℕ
  error : Option Str
deriving DecidableEq

/-- Collapses whitespace runs (`replace(/\s+/g, ' ')` when applied with
`isWsChar`/space, `replace(/\n+/g, '\n')` with newline test). -/
def collapseRuns (p : Char → Bool) (rep : Char) : Bool → Str → Str
  | _, [] => []
  | prev, c :: cs =>
    if p c then
      (if prev then collapseRuns p rep true cs else rep :: collapseRuns p rep true cs)
    else c :: collapseRuns p rep false cs

/-- The content cleaning of `scrapeAndSummarize`: trim (from the selector
extraction), collapse whitespace, collapse newlines, cap at 3000
characters. -/
def cleanContent (body : Str) : Str :=
  (collapseRuns (fun c => c = '\n') '\n' false
    (collapseRuns isWsChar ' ' false (trimStr body))).take 3000

/-- Word count via `content.split(' ').length`. -/
def countWords (cs : Str) : ℕ := cs.count ' ' + 1

/-- Header filtering: trimmed text must be truthy and shorter than 200
characters. -/
def filterHeaders (hs : List PageHeader) : List PageHeader :=
  hs.filterMap (fun h =>
    let t := trimStr h.text
    if !t.isEmpty ∧ t.length < 200 then some { level := h.level, text := t } else none)

/-- Model of `summarizeContent`: short content gets the static placeholder;
otherwise the chat outcome is used, with the empty-summary and thrown-error
fallbacks of the source. -/
def summarizeContent (chatOut : JsResult Str) (content title : Str) : Str :=
  if content.isEmpty ∨ content.length < 50 then
    title ++ lc ": Content not available for summary."
  else
    match chatOut with
    | .ok s => if (trimStr s).isEmpty then title ++ lc ": Summary not available." else trimStr s
    | .error _ => title ++ lc ": Summary generation failed."

/-- The record built on a successful scrape. -/
def scrapeOk (page : Page) (chatOut : JsResult Str) (url title : Str) : ScrapedContent :=
  let content := cleanContent page.body
  { url := url
  , title := title
  , content := content.take 1000
  , summary := summarizeContent chatOut content title
  , headers := (filterHeaders page.headers).take 10
  , wordCount := countWords content
  , error := none }

/-- The summary placeholder of the catch branch. -/
def errorSummary (title : Str) : Str :=
  lc "Unable to scrape content from " ++ title ++ lc ". This resource may require manual review."

/-- The record built in the catch branch of `scrapeAndSummarize`. -/
def scrapeErr (url title e : Str) : ScrapedContent :=
  { url := url, title := title, content := [], summary := errorSummary title
  , headers := [], wordCount := 0, error := some e }

/-- Model of `scrapeAndSummarize`: the whole body runs under a `try` whose
catch converts the thrown error into an error record. -/
def scrapeAndSummarize (fetched : JsResult Page) (chatOut : JsResult Str) (url title : Str) :
    JsResult ScrapedContent :=
  jsTry
    (match fetched with
     | .ok page => .ok (scrapeOk page chatOut url title)
     | .error e => .error e)
    (fun e => .ok (scrapeErr url title e))

/-- Total projection of `scrapeAndSummarize` (the function never rejects). -/
def scrapeTotal (fetched : JsResult Page) (chatOut : JsResult Str) (url title : Str) :
    ScrapedContent :=
  match scrapeAndSummarize fetched chatOut url title with
  | .ok r => r
  | .error e => scrapeErr url title e

/-! ## Model of `rankResources` (`src/services/researchAgentService.js`) -/

/-- The static trusted-domain allow-list. -/
def trustedDomains : List Str :=
  [lc "mozilla.org", lc "python.org", lc "react.dev", lc "angular.io",
   lc "coursera.org", lc "edx.org", lc "khanacademy.org", lc "freecodecamp.org",
   lc "github.com", lc "stackoverflow.com", lc "medium.com",
   lc "harvard.edu", lc "mit.edu", lc "stanford.edu"]

/-- The trusted-source test `trustedDomains.some(domain => url.includes(domain))`. -/
def isTrustedUrl (url : Str) : Bool :=
  trustedDomains.any (fun d => containsSub url d)

/-- The quality score accumulated before the final clamp: base relevance
(`relevanceScore || 0.5`), the three content boosts, and the trusted-domain
boost. -/
def rawQualityScore (r : SearchResult) (scraped : Option ScrapedContent) : ℚ :=
  let base : ℚ := match r.relevanceScore with
    | some q => if q = 0 then 1/2 else q
    | none => 1/2
  let withContent := base +
    (match scraped with
     | some s =>
       (if 500 < s.wordCount then (1 : ℚ)/10 else 0) +
       (if 3 < s.headers.length then (1 : ℚ)/10 else 0) +
       (if 100 < s.summary.length then (1 : ℚ)/10 else 0)
     | none => 0)
  withContent + (if isTrustedUrl r.url then (2 : ℚ)/10 else 0)

/-- The clamped quality score `Math.min(qualityScore, 1.0)`. -/
def qualityScore (r : SearchResult) (scraped : Option ScrapedContent) : ℚ :=
  min (rawQualityScore r scraped) 1

/-- A search result enriched with its scraped content and quality score. -/
structure RankedResource where
  title : Str
  url : Str
  snippet : Str
  source : Str
  relevanceScore : Option ℚ
  scrapedContent : Option ScrapedContent
  qualityScore : ℚ
deriving DecidableEq

/-- Enriches one search result: looks up its scraped record by URL and
attaches the quality score. -/
def rankOne (scrapedContent : List ScrapedContent) (r : SearchResult) : RankedResource :=
  let scraped := scrapedContent.find? (fun c => c.url = r.url)
  { title := r.title, url := r.url, snippet := r.snippet, source := r.source
  , relevanceScore := r.relevanceScore, scrapedContent := scraped
  , qualityScore := qualityScore r scraped }

/-- Insertion into a sorted list (used to model the descending sort). -/
def insertSorted {α : Type} (le : α → α → Bool) (x : α) : List α → List α
  | [] => [x]
  | y :: ys => if le x y then x :: y :: ys else y :: insertSorted le x ys

/-- Insertion sort (the model of `Array.prototype.sort` with the
comparator of the source; ordering details beyond the comparator are not
relied upon). -/
def sortByComparator {α : Type} (le : α → α → Bool) : List α → List α
  | [] => []
  | x :: xs => insertSorted le x (sortByComparator le xs)

/-- Model of `rankResources`: enrich every result, then sort by descending
quality score. -/
def rankResources (results : List SearchResult) (scrapedContent : List ScrapedContent) :
    List RankedResource :=
  sortByComparator (fun a b => b.qualityScore ≤ a.qualityScore)
    (results.map (rankOne scrapedContent))

/-! ## JS value helpers (truthiness, property access, `Number` coercion) -/

/-- JS truthiness of a JSON value (objects and arrays are always truthy). -/
def jsTruthy : Json → Bool
  | .null => false
  | .bool b => b
  | .num q => q ≠ 0
  | .str s => !s.isEmpty
  | .arr _ => true
  | .obj _ => true

/-- Property access `value[key]` on a JSON value: on objects the last
binding of the key wins (as with duplicate keys in `JSON.parse`); on every
other value the access yields `undefined` (`none`). -/
def jget (v : Json) (key : Str) : Option Json :=
  match v with
  | .obj fs => (fs.reverse.find? (fun p => p.1 = key)).map (fun p => p.2)
  | _ => none

/-- Model of `Number(..)` on a string: trimmed empty is 0, a plain decimal
literal (optional sign and fraction) is its value, anything else is `NaN`
(`none`; the exotic numeric forms JS also accepts do not occur in the
claims). -/
def jsStringToNum (s : Str) : Option ℚ :=
  let t := trimStr s
  if t.isEmpty then some 0
  else
    let (neg, t₁) := match t with
      | '-' :: r => (true, r)
      | '+' :: r => (false, r)
      | r => (false, r)
    let (ip, ic, t₂) := readDigits t₁ 0 0
    let (frac, fc, t₃) := match t₂ with
      | '.' :: r => readDigits r 0 0
      | r => (0, 0, r)
    if t₃.isEmpty ∧ (ic ≠ 0 ∨ fc ≠ 0) then
      some (mkRat ((if neg then -1 else 1) * ((ip * 10 ^ fc + frac : ℕ) : ℤ)) (10 ^ fc))
    else none

/-- Model of `Number(..)` on a JSON value (`none` is `NaN`); the
single-element-array coercion is modelled one level deep, matching how
`Number` stringifies such arrays. -/
def jsNumber : Json → Option ℚ
  | .null => some 0
  | .bool b => some (if b then 1 else 0)
  | .num q => some q
  | .str s => jsStringToNum s
  | .arr [] => some 0
  | .arr [.num q] => some q
  | .arr [.str s] => jsStringToNum s
  | .arr [.null] => some 0
  | .arr _ => none
  | .obj _ => none

/-- The JS expression `value.steps?.length || 0`. -/
def stepsLenJs (v : Json) : ℕ :=
  match jget v (lc "steps") with
  | some (.arr xs) => xs.length
  | some (.str s) => s.length
  | _ => 0

/-! ## Model of the step normalization of `generateRoadmapWithLLM`
(`src/services/roadmapLlmService.js`)

The `String(..)` coercion of the topic and of the id/concept lists is not
modelled: those fields carry the raw JSON values (no claim depends on the
coercion). The Mongo persistence writes the normalized `steps` array
verbatim, so the persisted steps are the function's result. -/

/-- A normalized roadmap step of the basic LLM path (lines 73-78):
`day := Number(s.day ?? i+1)` (`none` is `NaN`). -/
structure NStep where
  day : Option ℚ
  topic : Json
  lessonIds : List Json
  concepts : List Json

/-- The `day` normalization shared by both paths: position fallback for an
absent or null `day`, `Number` coercion otherwise. -/
def normDay (s : Json) (i : ℕ) : Option ℚ :=
  match jget s (lc "day") with
  | some v =>
    (match v with
     | .null => some ((i + 1 : ℕ) : ℚ)
     | _ => jsNumber v)
  | none => some ((i + 1 : ℕ) : ℚ)

/-- The `x ?? fallback` step for a JSON-valued field. -/
def jsCoalesce (v : Option Json) (fallback : Json) : Json :=
  match v with
  | some .null => fallback
  | some w => w
  | none => fallback

/-- The `x || fallback` step for a JSON-valued field. -/
def jsOrElse (v : Option Json) (fallback : Json) : Json :=
  match v with
  | some w => if jsTruthy w then w else fallback
  | none => fallback

/-- The `Array.isArray(x) ? x : []` step. -/
def jsArrayOrEmpty (v : Option Json) : List Json :=
  match v with
  | some (.arr xs) => xs
  | _ => []

/-- One step of the basic-path normalization (the body of the `map`). -/
def normalizeStep (i : ℕ) (s : Json) : NStep :=
  { day := normDay s i
  , topic := jsCoalesce (jget s (lc "topic")) (.str (lc ("Day " ++ toString (i + 1))))
  , lessonIds := jsArrayOrEmpty (jget s (lc "lessonIds"))
  , concepts := jsArrayOrEmpty (jget s (lc "concepts")) }

/-- Normalization of the basic LLM path: `json.steps.slice(0, 7).map(..)`. -/
def normalizeSteps (steps : List Json) : List NStep :=
  mapWithIndex normalizeStep 0 (steps.take 7)

/-- A converted step of the research-agent path (lines 36-45). -/
structure CStep where
  day : Option ℚ
  topic : Json
  lessonIds : List Json
  concepts : List Json
  description : Json
  resources : Json
  type : Json
  duration : Json

/-- One step of the research-agent-path conversion (the body of the
`map`). -/
def convertStep (i : ℕ) (s : Json) : CStep :=
  { day := normDay s i
  , topic := jsCoalesce (jget s (lc "title"))
      (jsCoalesce (jget s (lc "topic")) (.str (lc ("Day " ++ toString (i + 1)))))
  , lessonIds := []
  , concepts := jsArrayOrEmpty (jget s (lc "concepts"))
  , description := jsOrElse (jget s (lc "description")) (.str [])
  , resources := jsOrElse (jget s (lc "resources")) (.arr [])
  , type := jsOrElse (jget s (lc "type")) (.str (lc "theory"))
  , duration := jsOrElse (jget s (lc "duration")) (.str (lc "5 minutes")) }

/-- Conversion of the research-agent path:
`roadmap.steps?.slice(0, 7).map(..)`. -/
def convertSteps (steps : List Json) : List CStep :=
  mapWithIndex convertStep 0 (steps.take 7)

/-- The contiguity property claimed for persisted `day` values: they are
exactly 1, 2, .. in order. -/
def contiguousFromOne (ds : List (Option ℚ)) : Prop :=
  ds = (List.range ds.length).map (fun i => some ((i + 1 : ℕ) : ℚ))

instance (ds : List (Option ℚ)) : Decidable (contiguousFromOne ds) := by
  unfold contiguousFromOne; infer_instance

/-! ## Model of `generateComprehensiveRoadmap` / `generateFallbackRoadmap`
(`src/services/researchAgentService.js`)

All external effects of one execution are collected in an environment:
the search-provider outcome, the per-resource fetch and summarization-chat
outcomes, and the outcomes of the primary and fallback synthesis chat
calls. The `generatedAt` timestamp is not modelled. -/

/-- External-effect outcomes of one `generateComprehensiveRoadmap` run. -/
structure Env where
  search : JsResult DDGData
  fetch : ℕ → JsResult Page
  scrapeChat : ℕ → JsResult Str
  primaryChat : JsResult Str
  fallbackChat : JsResult Str

/-- The generation options (after the destructuring defaults). -/
structure GenOptions where
  timeframe : Str
  level : Str
  dailyTimeMinutes : ℚ
  focus : Str
  includeProjects : Bool

/-- The value returned by `generateComprehensiveRoadmap`. -/
structure RoadmapResult where
  topic : Str
  timeframe : Str
  level : Str
  dailyTimeMinutes : ℚ
  roadmap : Json
  sources : List RankedResource
  methodology : Str
  totalSteps : ℕ
  warning : Option Str

/-- The static one-step skeleton of `generateFallbackRoadmap`. -/
def fallbackSkeleton (topic level : Str) : Json :=
  .obj
    [ (lc "overview", .str (lc "Learning roadmap for " ++ topic))
    , (lc "steps", .arr
        [ .obj
            [ (lc "week", .num 1)
            , (lc "day", .num 1)
            , (lc "title", .str (lc "Introduction to " ++ topic))
            , (lc "description", .str (lc "Learn the basics of " ++ topic))
            , (lc "duration", .str (lc "5 minutes"))
            , (lc "type", .str (lc "theory"))
            , (lc "concepts", .arr [.str topic])
            , (lc "resources", .arr [])
            , (lc "optional", .bool false)
            , (lc "difficulty", .str level) ] ])
    , (lc "projects", .arr [])
    , (lc "milestones", .arr []) ]

/-- Model of `generateFallbackRoadmap`: the fallback chat call (which may
throw), `extractJSON` of its reply, and the `if (!roadmapJson)` skeleton
substitution for a falsy parse result. -/
def generateFallbackRoadmap (fallbackChat : JsResult Str) (topic level : Str) : JsResult Json :=
  match fallbackChat with
  | .error e => .error e
  | .ok reply =>
    match extractJSONPure (some reply) with
    | some j => .ok (if jsTruthy j then j else fallbackSkeleton topic level)
    | none => .ok (fallbackSkeleton topic level)

/-- The scraped-and-filtered content of the pipeline: the top-5 search
results scraped (`Promise.allSettled`, every promise fulfilled since the
scraper never rejects), keeping records with a truthy summary longer than
20 characters. -/
def pipelineValidContent (env : Env) (searchResults : List SearchResult) :
    List ScrapedContent :=
  (mapWithIndex (fun i r => scrapeTotal (env.fetch i) (env.scrapeChat i) r.url r.title)
      0 (searchResults.take 5)).filter
    (fun c => !c.summary.isEmpty && 20 < c.summary.length)

/-- Model of `generateComprehensiveRoadmap`: the web-enhanced body runs
under a `try`; its catch falls back to `generateFallbackRoadmap` (whose own
failure propagates to the caller). Accessing `.steps` on a `null` primary
synthesis result throws inside the `try`, reaching the catch. -/
def generateComprehensiveRoadmap (env : Env) (topic : Str) (opts : GenOptions) :
    JsResult RoadmapResult :=
  jsTry
    (let searchResults := performWebSearchPure env.search topic 8
     let ranked := rankResources searchResults (pipelineValidContent env searchResults)
     match env.primaryChat with
     | .error e => .error e
     | .ok reply =>
       match extractJSONPure (some reply) with
       | none => .error (lc "TypeError: Cannot read properties of null (reading 'steps')")
       | some .null => .error (lc "TypeError: Cannot read properties of null (reading 'steps')")
       | some j =>
         .ok
           { topic := topic, timeframe := opts.timeframe, level := opts.level
           , dailyTimeMinutes := opts.dailyTimeMinutes, roadmap := j
           , sources := ranked.take 10, methodology := lc "web-enhanced-llm"
           , totalSteps := stepsLenJs j, warning := none })
    (fun _ =>
      match generateFallbackRoadmap env.fallbackChat topic opts.level with
      | .error e => .error e
      | .ok rm =>
        .ok
          { topic := topic, timeframe := opts.timeframe, level := opts.level
          , dailyTimeMinutes := opts.dailyTimeMinutes, roadmap := rm
          , sources := [], methodology := lc "llm-fallback"
          , totalSteps := stepsLenJs rm
          , warning := some (lc "Generated without web sources due to connectivity issues") })

/-! ## Model of the `compare-resources` route handler
(`src/routes/research.js`) -/

/-- The JSON responses the handler can send: a completed comparison, or
the insufficient-data response with its message. -/
inductive CompareResponse where
  | compared (resources : List ScrapedContent) (comparison : Json) (validResourceCount : ℕ)
  | notEnough (resources : List ScrapedContent) (message : Str)

/-- The resource records scraped for the supplied URLs (every settled
promise is fulfilled because the scraper never rejects). -/
def compareScrapedResources (urls : List Str) (fetch : ℕ → JsResult Page)
    (chats : ℕ → JsResult Str) : List ScrapedContent :=
  mapWithIndex
    (fun i u => scrapeTotal (fetch i) (chats i) u (lc ("Resource " ++ toString (i + 1))))
    0 urls

/-- Model of the `compare-resources` handler body: scrape all URLs, filter
by `!r.error`, and either run the comparison chat (`extractJSON(..) || {}`)
or answer with the not-enough-valid-resources response. An error escaping
the body goes to the route's error middleware (modelled as `.error`). -/
def compareResourcesHandler (urls : List Str) (fetch : ℕ → JsResult Page)
    (chats : ℕ → JsResult Str) (cmpChat : JsResult Str) : JsResult CompareResponse :=
  jsTry
    (let resources := compareScrapedResources urls fetch chats
     let valid := resources.filter (fun r => !truthyOptStr r.error)
     if 2 ≤ valid.length then
       match cmpChat with
       | .error e => .error e
       | .ok reply =>
         .ok (.compared resources
           (jsOrElse (extractJSONPure (some reply)) (.obj [])) valid.length)
     else .ok (.notEnough resources (lc "Not enough valid resources to compare")))
    (fun e => .error e)

/-- Whether a comparison was attempted: the handler either produced a
comparison or failed inside the comparison attempt (never on the
not-enough branch). -/
def comparisonAttempted : JsResult CompareResponse → Bool
  | .ok (.compared _ _ _) => true
  | .error _ => true
  | .ok (.notEnough _ _) => false

/-! ## Helper lemmas -/

theorem mem_of_isPrefixOf : ∀ (l₁ l₂ : Str), l₁.isPrefixOf l₂ = true → ∀ a ∈ l₁, a ∈ l₂
  | [], _, _, a, ha => absurd ha (List.not_mem_nil a)
  | _ :: _, [], h, _, _ => by simp [List.isPrefixOf] at h
  | c :: cs, d :: ds, h, a, ha => by
    simp only [List.isPrefixOf, Bool.and_eq_true, beq_iff_eq] at h
    rcases List.mem_cons.mp ha with h₁ | h₁
    · exact h₁ ▸ h.1 ▸ List.mem_cons_self d ds
    · exact List.mem_cons_of_mem d (mem_of_isPrefixOf cs ds h.2 a h₁)

theorem splitFirst_eq_none (pat : Str) (a : Char) (ha : a ∈ pat) :
    ∀ cs : Str, a ∉ cs → splitFirst pat cs = none
  | [], _ => by
    have hne : pat.isEmpty = false := by
      cases pat with
      | nil => cases ha
      | cons _ _ => rfl
    simp [splitFirst, hne]
  | c :: cs, hcs => by
    have h₁ : ¬ pat.isPrefixOf (c :: cs) = true := fun h =>
      hcs (mem_of_isPrefixOf pat (c :: cs) h a ha)
    have h₂ : a ∉ cs := fun h => hcs (List.mem_cons_of_mem _ h)
    simp [splitFirst, h₁, splitFirst_eq_none pat a ha cs h₂]

theorem tripleCapture_eq_none (cs : Str) (h : bq ∉ cs) : tripleCapture cs = none := by
  simp [tripleCapture, splitFirst_eq_none [bq, bq, bq] bq (by simp) cs h]

theorem singleCapture_eq_none (cs : Str) (h : bq ∉ cs) : singleCapture cs = none := by
  simp [singleCapture, splitFirst_eq_none [bq] bq (by simp) cs h]

theorem extractContent_of_no_backtick (cs : Str) (h : bq ∉ cs) : extractContent cs = cs := by
  simp [extractContent, tripleCapture_eq_none cs h, singleCapture_eq_none cs h]

theorem extractTiers_isOk (cs jsonContent : Str) :
    ∃ v : Option Json, extractTiers cs jsonContent = .ok v := by
  unfold extractTiers tier5Result
  repeat' split
  all_goals exact ⟨_, rfl⟩

/-! ## Claim C10 -/

/-- C10: for every input (missing, empty, or arbitrary text), `extractJSON`
terminates and returns a parsed value or null without throwing: every parse
tier's failure is caught, so the embedded computation is `.ok` for every
input. (Termination holds by construction: the model is a total Lean
function.) -/
theorem c10_extractJSON_never_throws (text : Option Str) :
    ∃ v : Option Json, extractJSONJs text = .ok v := by
  match text with
  | none => exact ⟨none, rfl⟩
  | some cs =>
    by_cases h : cs.isEmpty
    · exact ⟨none, by simp [extractJSONJs, h]⟩
    · obtain ⟨v, hv⟩ := extractTiers_isOk cs (extractContent cs)
      exact ⟨v, by simp [extractJSONJs, h, hv, jsTry]⟩

/-! ## Claim C3 -/

/-- C3 (amended): for well-formed JSON input that contains no backtick
character, `extractJSON` returns exactly the `JSON.parse` value, via the
direct-parse tier (the code-fence extraction step can alter well-formed
JSON that does contain backticks, see the counterexample). -/
theorem c3_extractJSON_direct_parse (cs : Str) (v : Json)
    (hb : bq ∉ cs) (hp : JSONParse cs = some v) :
    extractJSONJs (some cs) = .ok (some v) := by
  have hne : cs.isEmpty = false := by
    cases cs with
    | nil => rw [show JSONParse [] = none from rfl] at hp; cases hp
    | cons _ _ => rfl
  have hcontent : extractContent cs = cs := extractContent_of_no_backtick cs hb
  have htier : extractTiers cs cs = .ok (some v) := by
    unfold extractTiers jsonParseJs
    rw [hp]
  simp [extractJSONJs, hne, hcontent, htier, jsTry]

/-- Witness for C3: a concrete well-formed JSON array without backticks is
returned exactly as `JSON.parse` gives it. -/
theorem c3_witness :
    extractJSONJs (some (lc "[1, 2]")) = .ok (some (.arr [.num 1, .num 2])) :=
  c3_extractJSON_direct_parse (lc "[1, 2]") (.arr [.num 1, .num 2]) (by decide) rfl

/-- Counterexample for C3 as stated: the input is well-formed JSON (a
string containing backticks), but `extractJSON` returns the number 1 --
the code-fence extraction step rewrote the valid input before parsing. -/
theorem c3_counterexample :
    JSONParse (lc "\"`1`\"") = some (.str [bq, '1', bq]) ∧
    extractJSONJs (some (lc "\"`1`\"")) = .ok (some (.num 1)) ∧
    Json.str [bq, '1', bq] ≠ Json.num 1 :=
  ⟨rfl, rfl, fun h => Json.noConfusion h⟩

/-! ## Claim C2 -/

theorem isPrefixOf_append_self : ∀ (t b : Str), t.isPrefixOf (t ++ b) = true
  | [], _ => by simp [List.isPrefixOf]
  | c :: cs, b => by simp [List.isPrefixOf, isPrefixOf_append_self cs b]

theorem splitFirst_cons (pat : Str) (c : Char) (cs : Str) :
    splitFirst pat (c :: cs) =
      if pat.isPrefixOf (c :: cs) = true then some ([], (c :: cs).drop pat.length)
      else
        match splitFirst pat cs with
        | some (pre, post) => some (c :: pre, post)
        | none => none := rfl

theorem containsSub_append (a t b : Str) : containsSub (a ++ t ++ b) t = true := by
  induction a with
  | nil =>
    cases t with
    | nil =>
      cases b with
      | nil => rfl
      | cons d ds => simp [containsSub, splitFirst]
    | cons c cs =>
      show (splitFirst (c :: cs) ((c :: cs) ++ b)).isSome = true
      have hb : (c :: cs) ++ b = c :: (cs ++ b) := rfl
      rw [hb, splitFirst_cons, ← hb, if_pos (isPrefixOf_append_self (c :: cs) b)]
      rfl
  | cons x a ih =>
    show (splitFirst t (x :: (a ++ t ++ b))).isSome = true
    rw [splitFirst_cons]
    by_cases h : t.isPrefixOf (x :: (a ++ t ++ b)) = true
    · rw [if_pos h]; rfl
    · rw [if_neg h]
      obtain ⟨p, hp⟩ := Option.isSome_iff_exists.mp ih
      rw [List.append_assoc] at hp
      simp [hp]

/-- C2: for every fetch outcome (any URL, including unreachable hosts and
malformed URLs) `scrapeAndSummarize` resolves, and whenever the fetch
throws, the resolved `ScrapedContent` has empty content, the error field
set to the thrown message, and the deterministic placeholder summary that
contains the title. -/
theorem c2_scrape_never_rejects (fetched : JsResult Page) (chatOut : JsResult Str)
    (url title : Str) :
    (∃ r : ScrapedContent, scrapeAndSummarize fetched chatOut url title = .ok r) ∧
    (∀ e, fetched = .error e →
      scrapeAndSummarize fetched chatOut url title = .ok (scrapeErr url title e) ∧
      (scrapeErr url title e).content = [] ∧
      (scrapeErr url title e).error = some e ∧
      (scrapeErr url title e).summary = errorSummary title ∧
      containsSub (scrapeErr url title e).summary title = true) := by
  constructor
  · cases fetched with
    | ok page => exact ⟨scrapeOk page chatOut url title, rfl⟩
    | error e => exact ⟨scrapeErr url title e, rfl⟩
  · intro e he
    subst he
    refine ⟨rfl, rfl, rfl, rfl, ?_⟩
    show containsSub (lc "Unable to scrape content from " ++ title ++
      lc ". This resource may require manual review.") title = true
    exact containsSub_append _ title _

/-- Witness for C2 at a concrete failing fetch. -/
theorem c2_witness :
    scrapeAndSummarize (.error (lc "Invalid URL")) (.error (lc "no chat"))
        (lc "not a url") (lc "X") = .ok (scrapeErr (lc "not a url") (lc "X") (lc "Invalid URL")) ∧
    containsSub (scrapeErr (lc "not a url") (lc "X") (lc "Invalid URL")).summary (lc "X") = true :=
  ⟨((c2_scrape_never_rejects (.error (lc "Invalid URL")) (.error (lc "no chat"))
      (lc "not a url") (lc "X")).2 (lc "Invalid URL") rfl).1,
   ((c2_scrape_never_rejects (.error (lc "Invalid URL")) (.error (lc "no chat"))
      (lc "not a url") (lc "X")).2 (lc "Invalid URL") rfl).2.2.2.2⟩

/-! ## Claim C8 -/

/-- The normalized body text before any truncation: trim, collapse
whitespace runs, collapse newline runs. -/
def normalizedBody (body : Str) : Str :=
  collapseRuns (fun c => c = '\n') '\n' false (collapseRuns isWsChar ' ' false (trimStr body))

theorem cleanContent_eq_take (body : Str) :
    cleanContent body = (normalizedBody body).take 3000 := rfl

/-- C8 (amended): on a successful scrape the returned `content` field is
the normalized body text truncated to 1000 characters -- the fixed
3000-character cap applies only to the internal content used for the word
count and the summarization prompt -- and bodies of at most 1000 normalized
characters are returned in full. -/
theorem c8_content_truncation (page : Page) (chatOut : JsResult Str) (url title : Str) :
    (scrapeOk page chatOut url title).content = (normalizedBody page.body).take 1000 ∧
    ((normalizedBody page.body).length ≤ 1000 →
      (scrapeOk page chatOut url title).content = normalizedBody page.body) := by
  have h : (scrapeOk page chatOut url title).content =
      ((normalizedBody page.body).take 3000).take 1000 := rfl
  have hmin : (1000 : ℕ) ⊓ 3000 = 1000 := by omega
  constructor
  · rw [h, List.take_take, hmin]
  · intro hle
    rw [h, List.take_take, hmin]
    exact List.take_of_length_le hle

/-- Witness for C8 at a concrete short body. -/
theorem c8_witness :
    (scrapeOk { body := lc "short body", headers := [] } (.error (lc "no chat"))
        (lc "u") (lc "t")).content = normalizedBody (lc "short body") :=
  (c8_content_truncation { body := lc "short body", headers := [] } (.error (lc "no chat"))
      (lc "u") (lc "t")).2 (by decide)

/-- Counterexample for C8 as stated: a normalized extracted body of 1001
characters (within the claimed 1000-3000 full-return range) comes back with
only 1000 characters in the `content` field. -/
theorem c8_counterexample :
    (normalizedBody (List.replicate 1001 'a')).length = 1001 ∧
    ((scrapeOk { body := List.replicate 1001 'a', headers := [] } (.error (lc "no chat"))
        (lc "u") (lc "t")).content).length = 1000 := by
  constructor
  · decide
  · decide

/-! ## Claim C5 -/

/-- The disjunction of the curated table's trigger keywords, matched
case-insensitively against the query. -/
def curatedKeywordHit (query : Str) : Prop :=
  containsSub (toLowerStr query) (lc "javascript") = true ∨
  containsSub (toLowerStr query) (lc "js") = true ∨
  containsSub (toLowerStr query) (lc "python") = true ∨
  containsSub (toLowerStr query) (lc "data science") = true ∨
  containsSub (toLowerStr query) (lc "machine learning") = true ∨
  containsSub (toLowerStr query) (lc "react") = true ∨
  containsSub (toLowerStr query) (lc "frontend") = true ∨
  containsSub (toLowerStr query) (lc "leadership") = true ∨
  containsSub (toLowerStr query) (lc "management") = true

theorem getCuratedSources_ne_nil (query : Str) (h : curatedKeywordHit query) :
    getCuratedSources query ≠ [] := by
  intro hnil
  unfold getCuratedSources at hnil
  simp only [List.append_eq_nil] at hnil
  obtain ⟨⟨⟨⟨h₁, h₂⟩, h₃⟩, h₄⟩, h₅⟩ := hnil
  rcases h with h | h | h | h | h | h | h | h | h
  · simp [h] at h₁
  · simp [h] at h₁
  · simp [h] at h₂
  · simp [h] at h₃
  · simp [h] at h₃
  · simp [h] at h₄
  · simp [h] at h₄
  · simp [h] at h₅
  · simp [h] at h₅

/-- The premise of the fallback guarantee: the provider threw, or its
response produced no usable entry (no truthy abstract and no usable
related topic) with a positive requested limit. -/
def providerCameUpEmpty (outcome : JsResult DDGData) (query : Str) (n : ℕ) : Prop :=
  (∃ e, outcome = .error e) ∨
  (∃ d, outcome = .ok d ∧ ddgAbstractEntry d query = none ∧
    d.relatedTopics.all (fun t => (ddgTopicEntry t).isNone) = true ∧ 1 ≤ n)

/-- C5 (amended): `performWebSearch` always resolves to an array, and when
the provider errors -- or yields zero usable entries while the requested
limit is at least 1 -- the result is non-empty and consists of curated
entries for any query containing one of the curated table's keyword
substrings (matched case-insensitively). The limit-at-least-1 proviso is
what the counterexample forces: with limit 0 the zero-usable-entries path
returns an empty array. -/
theorem c5_search_curated_fallback (outcome : JsResult DDGData) (query : Str) (n : ℕ) :
    (∃ rs, performWebSearch outcome query n = .ok rs) ∧
    (∀ rs, performWebSearch outcome query n = .ok rs →
      providerCameUpEmpty outcome query n → curatedKeywordHit query →
      rs ≠ [] ∧ ∀ r ∈ rs, r ∈ getCuratedSources query) := by
  constructor
  · cases outcome with
    | ok d => exact ⟨performWebSearchOk d query n, rfl⟩
    | error e => exact ⟨getCuratedSources query, rfl⟩
  · intro rs hrs hempty hkey
    have hcur := getCuratedSources_ne_nil query hkey
    rcases hempty with ⟨e, he⟩ | ⟨d, hd, habs, htop, hn⟩
    · subst he
      have : rs = getCuratedSources query := by
        simpa [performWebSearch, jsTry] using hrs.symm
      subst this
      exact ⟨hcur, fun r hr => hr⟩
    · subst hd
      have hrs' : rs = performWebSearchOk d query n := by
        simpa [performWebSearch, jsTry] using hrs.symm
      subst hrs'
      have hfm : ((d.relatedTopics.take n).filterMap ddgTopicEntry) = [] := by
        rw [List.filterMap_eq_nil_iff]
        intro t ht
        have := List.all_eq_true.mp htop t (List.take_subset n d.relatedTopics ht)
        exact Option.isNone_iff_eq_none.mp this
      unfold performWebSearchOk
      rw [habs]
      simp only [List.nil_append, List.length_nil, Nat.sub_zero, hfm]
      have hlen : (([] : List SearchResult)).length < 3 := by simp
      simp only [List.length_nil, if_pos (by norm_num : (0 : ℕ) < 3), List.nil_append]
      constructor
      · rw [List.take_take]
        intro htake
        rcases List.take_eq_nil_iff.mp htake with h0 | hnil
        · omega
        · exact hcur hnil
      · intro r hr
        exact List.take_subset _ _ (List.take_subset _ _ hr)

/-- Witness for C5: a provider error on a curated-keyword query yields a
non-empty curated result. -/
theorem c5_witness :
    performWebSearch (.error (lc "getaddrinfo ENOTFOUND")) (lc "python") 10 =
      .ok (getCuratedSources (lc "python")) ∧
    getCuratedSources (lc "python") ≠ [] :=
  ⟨rfl,
   ((c5_search_curated_fallback (.error (lc "getaddrinfo ENOTFOUND")) (lc "python") 10).2
      (getCuratedSources (lc "python")) rfl (Or.inl ⟨lc "getaddrinfo ENOTFOUND", rfl⟩)
      (Or.inr (Or.inr (Or.inl (by decide))))).1⟩

/-- Counterexample for C5 as stated: the provider responds without any
usable entry, the query contains the curated keyword `python`, yet with
limit 0 the result is the empty array -- it contains no curated entry. -/
theorem c5_counterexample :
    performWebSearch
        (.ok { abstractText := none, abstractURL := none, heading := none
             , abstractSource := none, relatedTopics := [] })
        (lc "python") 0 = .ok [] ∧
    containsSub (toLowerStr (lc "python")) (lc "python") = true :=
  ⟨rfl, by decide⟩

/-! ## Claim C6 -/

theorem mem_insertSorted {α : Type} (le : α → α → Bool) (x y : α) :
    ∀ l : List α, y ∈ insertSorted le x l ↔ y = x ∨ y ∈ l
  | [] => by simp [insertSorted]
  | z :: zs => by
    simp only [insertSorted]
    split
    · simp [List.mem_cons]
    · rw [List.mem_cons, mem_insertSorted le x y zs, List.mem_cons]
      tauto

theorem mem_sortByComparator {α : Type} (le : α → α → Bool) (y : α) :
    ∀ l : List α, y ∈ sortByComparator le l ↔ y ∈ l
  | [] => Iff.rfl
  | z :: zs => by
    simp only [sortByComparator]
    rw [mem_insertSorted, mem_sortByComparator le y zs, List.mem_cons]

theorem rawQualityScore_eq (r : SearchResult) (scraped : Option ScrapedContent) :
    rawQualityScore r scraped =
      (match r.relevanceScore with
       | some q => if q = 0 then 1/2 else q
       | none => 1/2) +
      (match scraped with
       | some s =>
         (if 500 < s.wordCount then (1 : ℚ)/10 else 0) +
         (if 3 < s.headers.length then (1 : ℚ)/10 else 0) +
         (if 100 < s.summary.length then (1 : ℚ)/10 else 0)
       | none => 0) +
      (if isTrustedUrl r.url then (2 : ℚ)/10 else 0) := rfl

theorem rawQualityScore_wordCount (r : SearchResult) (s : ScrapedContent) (w : ℕ) :
    rawQualityScore r (some { s with wordCount := w }) =
      (match r.relevanceScore with
       | some q => if q = 0 then 1/2 else q
       | none => 1/2) +
      ((if 500 < w then (1 : ℚ)/10 else 0) +
       (if 3 < s.headers.length then (1 : ℚ)/10 else 0) +
       (if 100 < s.summary.length then (1 : ℚ)/10 else 0)) +
      (if isTrustedUrl r.url then (2 : ℚ)/10 else 0) := rfl

theorem rawQualityScore_headers (r : SearchResult) (s : ScrapedContent) (hs : List PageHeader) :
    rawQualityScore r (some { s with headers := hs }) =
      (match r.relevanceScore with
       | some q => if q = 0 then 1/2 else q
       | none => 1/2) +
      ((if 500 < s.wordCount then (1 : ℚ)/10 else 0) +
       (if 3 < hs.length then (1 : ℚ)/10 else 0) +
       (if 100 < s.summary.length then (1 : ℚ)/10 else 0)) +
      (if isTrustedUrl r.url then (2 : ℚ)/10 else 0) := rfl

theorem rawQualityScore_nonneg (r : SearchResult) (scraped : Option ScrapedContent)
    (h : ∀ q : ℚ, r.relevanceScore = some q → 0 ≤ q) :
    0 ≤ rawQualityScore r scraped := by
  unfold rawQualityScore
  have hbase : (0 : ℚ) ≤
      (match r.relevanceScore with
       | some q => if q = 0 then 1/2 else q
       | none => 1/2) := by
    cases hr : r.relevanceScore with
    | some q =>
      by_cases hq : q = 0
      · simp [hq]
      · simpa [hq] using h q hr
    | none => norm_num
  have hcontent : (0 : ℚ) ≤
      (match scraped with
       | some s =>
         (if 500 < s.wordCount then (1 : ℚ)/10 else 0) +
         (if 3 < s.headers.length then (1 : ℚ)/10 else 0) +
         (if 100 < s.summary.length then (1 : ℚ)/10 else 0)
       | none => 0) := by
    cases scraped with
    | some s => positivity
    | none => norm_num
  have htrust : (0 : ℚ) ≤ (if isTrustedUrl r.url then (2 : ℚ)/10 else 0) := by positivity
  linarith

/-- C6: per-candidate monotonicity of the quality score in the scraped
word count, in the number of extracted headings, and in gaining a
trusted-domain match (other fields fixed); and the clamp of every output
score of `rankResources` to `[0, 1]` when the input relevance scores lie
in `[0, 1]`. -/
theorem c6_quality_monotone_clamped :
    (∀ (r : SearchResult) (s : ScrapedContent) (w₁ w₂ : ℕ), w₁ ≤ w₂ →
      qualityScore r (some { s with wordCount := w₁ }) ≤
        qualityScore r (some { s with wordCount := w₂ })) ∧
    (∀ (r : SearchResult) (s : ScrapedContent) (h₁ h₂ : List PageHeader), h₁.length ≤ h₂.length →
      qualityScore r (some { s with headers := h₁ }) ≤
        qualityScore r (some { s with headers := h₂ })) ∧
    (∀ (r₁ r₂ : SearchResult) (scraped : Option ScrapedContent),
      r₁.title = r₂.title → r₁.snippet = r₂.snippet → r₁.source = r₂.source →
      r₁.relevanceScore = r₂.relevanceScore →
      isTrustedUrl r₁.url = false → isTrustedUrl r₂.url = true →
      qualityScore r₁ scraped ≤ qualityScore r₂ scraped) ∧
    (∀ (results : List SearchResult) (scraped : List ScrapedContent),
      (∀ r ∈ results, ∀ q : ℚ, r.relevanceScore = some q → 0 ≤ q ∧ q ≤ 1) →
      ∀ x ∈ rankResources results scraped, 0 ≤ x.qualityScore ∧ x.qualityScore ≤ 1) := by
  refine ⟨?_, ?_, ?_, ?_⟩
  · intro r s w₁ w₂ hw
    apply min_le_min _ le_rfl
    rw [rawQualityScore_wordCount, rawQualityScore_wordCount]
    have hb : (if 500 < w₁ then (1 : ℚ)/10 else 0) ≤ (if 500 < w₂ then (1 : ℚ)/10 else 0) := by
      split_ifs with hA hB
      · exact le_rfl
      · omega
      · norm_num
      · exact le_rfl
    linarith
  · intro r s h₁ h₂ hh
    apply min_le_min _ le_rfl
    rw [rawQualityScore_headers, rawQualityScore_headers]
    have hb : (if 3 < h₁.length then (1 : ℚ)/10 else 0) ≤
        (if 3 < h₂.length then (1 : ℚ)/10 else 0) := by
      split_ifs with hA hB
      · exact le_rfl
      · omega
      · norm_num
      · exact le_rfl
    linarith
  · intro r₁ r₂ scraped _ _ _ hrel ht₁ ht₂
    apply min_le_min _ le_rfl
    rw [rawQualityScore_eq, rawQualityScore_eq, hrel, ht₁, ht₂]
    have e₁ : (if (false : Bool) then (2 : ℚ)/10 else 0) = 0 := rfl
    have e₂ : (if (true : Bool) then (2 : ℚ)/10 else 0) = 2/10 := rfl
    rw [e₁, e₂]
    have h210 : (0 : ℚ) ≤ 2/10 := by norm_num
    linarith
  · intro results scraped hrel x hx
    unfold rankResources at hx
    rw [mem_sortByComparator] at hx
    obtain ⟨r, hr, hxr⟩ := List.mem_map.mp hx
    subst hxr
    have hscore : (rankOne scraped r).qualityScore =
        qualityScore r (scraped.find? (fun c => c.url = r.url)) := rfl
    rw [hscore]
    constructor
    · exact le_min (rawQualityScore_nonneg r _ (fun q hq => (hrel r hr q hq).1)) (by norm_num)
    · exact min_le_right _ _

/-- Witness for C6: the monotonicity and clamp conjuncts applied at
concrete inputs. -/
theorem c6_witness :
    qualityScore
        { title := lc "t", url := lc "https://example.com", snippet := lc "s"
        , source := lc "src", relevanceScore := some (7/10) }
        (some { url := lc "https://example.com", title := lc "t", content := lc "c"
              , summary := lc "sum", headers := [], wordCount := 100, error := none }) ≤
      qualityScore
        { title := lc "t", url := lc "https://example.com", snippet := lc "s"
        , source := lc "src", relevanceScore := some (7/10) }
        (some { url := lc "https://example.com", title := lc "t", content := lc "c"
              , summary := lc "sum", headers := [], wordCount := 600, error := none }) ∧
    (∀ x ∈ rankResources
        [{ title := lc "t", url := lc "https://example.com", snippet := lc "s"
         , source := lc "src", relevanceScore := some (7/10) }] [],
      0 ≤ x.qualityScore ∧ x.qualityScore ≤ 1) :=
  ⟨c6_quality_monotone_clamped.1
      { title := lc "t", url := lc "https://example.com", snippet := lc "s"
      , source := lc "src", relevanceScore := some (7/10) }
      { url := lc "https://example.com", title := lc "t", content := lc "c"
      , summary := lc "sum", headers := [], wordCount := 100, error := none }
      100 600 (by norm_num),
   c6_quality_monotone_clamped.2.2.2
      [{ title := lc "t", url := lc "https://example.com", snippet := lc "s"
       , source := lc "src", relevanceScore := some (7/10) }] []
      (by
        intro r hr q hq
        rw [List.mem_singleton] at hr
        subst hr
        injection hq with h
        rw [← h]
        norm_num)⟩

/-! ## Claim C7 -/

/-- The boost formula as claim C7 states it, written from the spec's
words: base relevance plus `+0.1` for word count over 500, `+0.1` for *at
least 3* headings, `+0.1` for a summary over 100 characters, `+0.2` for a
trusted-domain match. -/
def c7ClaimFormula (base : ℚ) (scraped : Option ScrapedContent) (trusted : Bool) : ℚ :=
  base +
  (match scraped with
   | some s =>
     (if 500 < s.wordCount then (1 : ℚ)/10 else 0) +
     (if 3 ≤ s.headers.length then (1 : ℚ)/10 else 0) +
     (if 100 < s.summary.length then (1 : ℚ)/10 else 0)
   | none => 0) +
  (if trusted then (2 : ℚ)/10 else 0)

/-- The amended boost formula: the heading boost requires strictly more
than 3 extracted headings (at least 4). -/
def c7AmendedFormula (base : ℚ) (scraped : Option ScrapedContent) (trusted : Bool) : ℚ :=
  base +
  (match scraped with
   | some s =>
     (if 500 < s.wordCount then (1 : ℚ)/10 else 0) +
     (if 3 < s.headers.length then (1 : ℚ)/10 else 0) +
     (if 100 < s.summary.length then (1 : ℚ)/10 else 0)
   | none => 0) +
  (if trusted then (2 : ℚ)/10 else 0)

/-- C7 (amended): for a result carrying a non-zero relevance score, the
pre-clamp quality score is exactly the relevance score plus the additive
boosts, with the heading boost at *more than 3* headings (not at 3). -/
theorem c7_raw_score_formula (r : SearchResult) (scraped : Option ScrapedContent) (q : ℚ)
    (hq : r.relevanceScore = some q) (hq0 : q ≠ 0) :
    rawQualityScore r scraped = c7AmendedFormula q scraped (isTrustedUrl r.url) := by
  unfold rawQualityScore c7AmendedFormula
  rw [hq]
  simp [hq0]

/-- Witness for C7 at a concrete result and scraped record. -/
theorem c7_witness :
    rawQualityScore
        { title := lc "Sample", url := lc "https://example.com/post", snippet := lc "s"
        , source := lc "Example", relevanceScore := some (1/2) }
        (some { url := lc "https://example.com/post", title := lc "Sample"
              , content := lc "body", summary := lc "short"
              , headers := [{ level := 1, text := lc "A" }, { level := 2, text := lc "B" },
                            { level := 2, text := lc "C" }]
              , wordCount := 10, error := none }) =
      c7AmendedFormula (1/2)
        (some { url := lc "https://example.com/post", title := lc "Sample"
              , content := lc "body", summary := lc "short"
              , headers := [{ level := 1, text := lc "A" }, { level := 2, text := lc "B" },
                            { level := 2, text := lc "C" }]
              , wordCount := 10, error := none })
        (isTrustedUrl (lc "https://example.com/post")) :=
  c7_raw_score_formula _ _ (1/2) rfl (by norm_num)

/-- Counterexample for C7 as stated: with exactly 3 extracted headings the
code's pre-clamp score (no heading boost, `> 3` in the source) differs
from the claim's formula (`≥ 3` boost). -/
theorem c7_counterexample :
    rawQualityScore
        { title := lc "Sample", url := lc "https://example.com/post", snippet := lc "s"
        , source := lc "Example", relevanceScore := some (1/2) }
        (some { url := lc "https://example.com/post", title := lc "Sample"
              , content := lc "body", summary := lc "short"
              , headers := [{ level := 1, text := lc "A" }, { level := 2, text := lc "B" },
                            { level := 2, text := lc "C" }]
              , wordCount := 10, error := none }) ≠
      c7ClaimFormula (1/2)
        (some { url := lc "https://example.com/post", title := lc "Sample"
              , content := lc "body", summary := lc "short"
              , headers := [{ level := 1, text := lc "A" }, { level := 2, text := lc "B" },
                            { level := 2, text := lc "C" }]
              , wordCount := 10, error := none })
        (isTrustedUrl (lc "https://example.com/post")) := by
  have htrust : isTrustedUrl (lc "https://example.com/post") = false := by decide
  have hlen : (lc "short").length = 5 := rfl
  have hlen3 : ([{ level := 1, text := lc "A" }, { level := 2, text := lc "B" },
      { level := 2, text := lc "C" }] : List PageHeader).length = 3 := rfl
  simp only [rawQualityScore_eq, c7ClaimFormula, htrust, hlen, hlen3]
  norm_num

/-! ## Claim C9 -/

/-- The number of URLs among positions `k, .., k+n-1` whose fetch outcome
is a success -- the count of successfully scraped resources. -/
def okCount (fetch : ℕ → JsResult Page) : ℕ → ℕ → ℕ
  | _, 0 => 0
  | k, n + 1 => (if (fetch k).isOk then 1 else 0) + okCount fetch (k + 1) n

theorem compare_valid_count (fetch : ℕ → JsResult Page) (chats : ℕ → JsResult Str)
    (hErr : ∀ i e, fetch i = .error e → e ≠ []) :
    ∀ (urls : List Str) (k : ℕ),
      ((mapWithIndex (fun i u => scrapeTotal (fetch i) (chats i) u
          (lc ("Resource " ++ toString (i + 1)))) k urls).filter
        (fun r => !truthyOptStr r.error)).length =
      okCount fetch k urls.length
  | [], _ => rfl
  | u :: us, k => by
    have ih := compare_valid_count fetch chats hErr us (k + 1)
    simp only [mapWithIndex, List.length_cons, List.filter_cons, okCount]
    cases hf : fetch k with
    | ok page =>
      have hval : (!truthyOptStr (scrapeTotal (Except.ok page) (chats k) u
          (lc ("Resource " ++ toString (k + 1)))).error) = true := rfl
      have hok : (Except.isOk (Except.ok page : JsResult Page)) = true := rfl
      rw [hval, hok]
      simp [ih]
      omega
    | error e =>
      have hne : e ≠ [] := hErr k e hf
      have hval : (!truthyOptStr (scrapeTotal (Except.error e : JsResult Page) (chats k) u
          (lc ("Resource " ++ toString (k + 1)))).error) = false := by
        show (!truthyOptStr (some e)) = false
        cases e with
        | nil => exact absurd rfl hne
        | cons c cs => rfl
      have hok : (Except.isOk (Except.error e : JsResult Page)) = false := rfl
      rw [hval, hok]
      simp [ih]

/-- C9: a comparison is attempted exactly when at least 2 of the supplied
URLs scraped successfully (their `ScrapedContent` carries no error); with
fewer than 2 the handler responds with the explicit
not-enough-valid-resources message and produces no comparison. (The
hypothesis `hErr` records that a thrown scrape error carries a non-empty
message, as axios errors do; the code tests `!r.error`.) -/
theorem c9_compare_needs_two_valid (urls : List Str) (fetch : ℕ → JsResult Page)
    (chats : ℕ → JsResult Str) (cmpChat : JsResult Str)
    (hErr : ∀ i e, fetch i = .error e → e ≠ []) :
    (comparisonAttempted (compareResourcesHandler urls fetch chats cmpChat) = true ↔
      2 ≤ okCount fetch 0 urls.length) ∧
    (okCount fetch 0 urls.length < 2 →
      compareResourcesHandler urls fetch chats cmpChat =
        .ok (.notEnough (compareScrapedResources urls fetch chats)
          (lc "Not enough valid resources to compare"))) := by
  have hres : ((compareScrapedResources urls fetch chats).filter
      (fun r => !truthyOptStr r.error)).length =
      okCount fetch 0 urls.length := compare_valid_count fetch chats hErr urls 0
  by_cases hc : 2 ≤ ((compareScrapedResources urls fetch chats).filter
      (fun r => !truthyOptStr r.error)).length
  · have hhandler : compareResourcesHandler urls fetch chats cmpChat =
        jsTry
          (match cmpChat with
           | .error e => .error e
           | .ok reply =>
             .ok (.compared (compareScrapedResources urls fetch chats)
               (jsOrElse (extractJSONPure (some reply)) (.obj []))
               ((compareScrapedResources urls fetch chats).filter
                 (fun r => !truthyOptStr r.error)).length))
          (fun e => .error e) := by
      unfold compareResourcesHandler
      rw [if_pos hc]
    constructor
    · rw [hhandler]
      constructor
      · intro _
        rw [← hres]
        exact hc
      · intro _
        cases cmpChat with
        | ok reply => rfl
        | error e => rfl
    · intro hlt
      rw [← hres] at hlt
      omega
  · have hhandler : compareResourcesHandler urls fetch chats cmpChat =
        .ok (.notEnough (compareScrapedResources urls fetch chats)
          (lc "Not enough valid resources to compare")) := by
      unfold compareResourcesHandler
      rw [if_neg hc]
      rfl
    constructor
    · rw [hhandler]
      constructor
      · intro hatt
        cases hatt
      · intro hge
        rw [← hres] at hge
        exact absurd hge hc
    · intro _
      exact hhandler

/-- Witness for C9: two URLs that both scrape successfully lead to an
attempted comparison. -/
theorem c9_witness :
    comparisonAttempted
      (compareResourcesHandler [lc "https://a.test", lc "https://b.test"]
        (fun _ => .ok { body := lc "body text", headers := [] })
        (fun _ => .ok (lc "a useful summary of the page content"))
        (.ok (lc "\x7b\"summary\": \"ok\"\x7d"))) = true :=
  (c9_compare_needs_two_valid [lc "https://a.test", lc "https://b.test"]
      (fun _ => .ok { body := lc "body text", headers := [] })
      (fun _ => .ok (lc "a useful summary of the page content"))
      (.ok (lc "\x7b\"summary\": \"ok\"\x7d"))
      (fun _ e h => Except.noConfusion h)).1.mpr (by decide)

/-- The `okCount` in the C9 witness is the plain count of the two
successful fetches. -/
example :
    okCount (fun _ => (.ok { body := lc "body text", headers := [] } : JsResult Page)) 0 2 = 2 :=
  rfl

/-! ## Claim C4 -/

theorem length_mapWithIndex {α β : Type} (f : ℕ → α → β) :
    ∀ (k : ℕ) (l : List α), (mapWithIndex f k l).length = l.length
  | _, [] => rfl
  | k, _ :: xs => by simp [mapWithIndex, length_mapWithIndex f (k + 1) xs]

theorem normalizeStep_day_default (s : Json) (i : ℕ)
    (h : jget s (lc "day") = none ∨ jget s (lc "day") = some .null) :
    (normalizeStep i s).day = some ((i + 1 : ℕ) : ℚ) := by
  have : normDay s i = some ((i + 1 : ℕ) : ℚ) := by
    unfold normDay
    rcases h with h | h <;> rw [h]
  simpa [normalizeStep] using this

theorem mapWithIndex_days (xs : List Json) :
    ∀ k : ℕ, (∀ s ∈ xs, jget s (lc "day") = none ∨ jget s (lc "day") = some .null) →
      (mapWithIndex normalizeStep k xs).map (fun st => st.day) =
        (List.range xs.length).map (fun i => some ((k + i + 1 : ℕ) : ℚ)) := by
  induction xs with
  | nil => intro k _; rfl
  | cons s ss ih =>
    intro k hday
    have hs := hday s (List.mem_cons_self s ss)
    have hss : ∀ t ∈ ss, jget t (lc "day") = none ∨ jget t (lc "day") = some .null :=
      fun t ht => hday t (List.mem_cons_of_mem s ht)
    simp only [mapWithIndex, List.map_cons, List.length_cons, List.range_succ_eq_map,
      List.map_map, Function.comp, Nat.succ_eq_add_one]
    rw [normalizeStep_day_default s k hs, ih (k + 1) hss]
    simp
    intro a _
    ring

/-- C4 (amended): a synthesis output with more than 7 proposed steps is
persisted with exactly 7 steps (both normalization paths cap at 7), and
the persisted `day` values form the contiguous sequence 1..7 exactly when
the retained proposed steps carry no `day` of their own -- a step's own
`day` value is `Number`-coerced and stored as-is, not re-sequenced. -/
theorem c4_seven_step_cap (steps : List Json) (h7 : 7 < steps.length) :
    (normalizeSteps steps).length ≤ 7 ∧ (convertSteps steps).length ≤ 7 ∧
    ((∀ s ∈ steps.take 7, jget s (lc "day") = none ∨ jget s (lc "day") = some .null) →
      (normalizeSteps steps).map (fun st => st.day) =
        (List.range 7).map (fun i => some ((i + 1 : ℕ) : ℚ))) := by
  have htake : (steps.take 7).length = 7 := by
    rw [List.length_take]
    omega
  refine ⟨?_, ?_, ?_⟩
  · rw [normalizeSteps, length_mapWithIndex, htake]
  · rw [convertSteps, length_mapWithIndex, htake]
  · intro hday
    rw [normalizeSteps, mapWithIndex_days (steps.take 7) 0 hday, htake]
    congr 1
    funext i
    congr 2
    omega

/-- Witness for C4: eight steps without `day` fields are persisted as 7
steps with days 1..7. -/
theorem c4_witness :
    (normalizeSteps (List.replicate 8 (Json.obj [(lc "topic", .str (lc "T"))]))).length ≤ 7 ∧
    (normalizeSteps (List.replicate 8 (Json.obj [(lc "topic", .str (lc "T"))]))).map
        (fun st => st.day) =
      (List.range 7).map (fun i => some ((i + 1 : ℕ) : ℚ)) :=
  ⟨(c4_seven_step_cap (List.replicate 8 (Json.obj [(lc "topic", .str (lc "T"))]))
      (by decide)).1,
   (c4_seven_step_cap (List.replicate 8 (Json.obj [(lc "topic", .str (lc "T"))]))
      (by decide)).2.2
     (fun s hs => Or.inl (by
       have : s = Json.obj [(lc "topic", .str (lc "T"))] := by
         have hsub := List.take_subset 7 _ hs
         exact List.eq_of_mem_replicate hsub
       rw [this]
       rfl))⟩

/-- Counterexample for C4 as stated: eight proposed steps each carrying
`day: 5` are persisted with 7 steps whose days are all 5 -- not a
contiguous sequence starting at 1. -/
theorem c4_counterexample :
    7 < (List.replicate 8 (Json.obj [(lc "day", Json.num 5)])).length ∧
    (normalizeSteps (List.replicate 8 (Json.obj [(lc "day", Json.num 5)]))).map
        (fun st => st.day) = List.replicate 7 (some (5 : ℚ)) ∧
    ¬ contiguousFromOne
        ((normalizeSteps (List.replicate 8 (Json.obj [(lc "day", Json.num 5)]))).map
          (fun st => st.day)) := by
  refine ⟨by decide, rfl, ?_⟩
  intro hcontig
  unfold contiguousFromOne at hcontig
  have h5 : ((normalizeSteps (List.replicate 8 (Json.obj [(lc "day", Json.num 5)]))).map
      (fun st => st.day)) = List.replicate 7 (some (5 : ℚ)) := rfl
  rw [h5] at hcontig
  have hr : ((List.range (List.replicate 7 (some (5 : ℚ))).length).map
      (fun i => some ((i + 1 : ℕ) : ℚ))) =
      [some ((1 : ℕ) : ℚ), some ((2 : ℕ) : ℚ), some ((3 : ℕ) : ℚ), some ((4 : ℕ) : ℚ),
       some ((5 : ℕ) : ℚ), some ((6 : ℕ) : ℚ), some ((7 : ℕ) : ℚ)] := rfl
  have hl : (List.replicate 7 (some (5 : ℚ))) =
      [some (5 : ℚ), some 5, some 5, some 5, some 5, some 5, some 5] := rfl
  rw [hr, hl] at hcontig
  injection hcontig with h1 _
  injection h1 with h2
  norm_num at h2

/-! ## Claim C1 -/

/-- Failure of the web-enhanced path for the only reasons that can throw
inside the `try` block: the primary synthesis call throws, or its reply
yields no JSON value (then `roadmap.steps` on `null` throws). -/
def primaryFails (env : Env) : Prop :=
  (∃ e, env.primaryChat = .error e) ∨
  (∃ t, env.primaryChat = .ok t ∧
    (extractJSONPure (some t) = none ∨ extractJSONPure (some t) = some .null))

theorem stepsLenJs_fallbackSkeleton (topic level : Str) :
    stepsLenJs (fallbackSkeleton topic level) = 1 := rfl

/-- C1 (amended): when the web-enhanced path fails and the fallback
synthesis call itself returns a reply, `generateComprehensiveRoadmap`
returns a result whose `methodology` is `llm-fallback`; the static
one-step skeleton (one step `Introduction to <topic>` of type `theory`
with the requested difficulty level) is substituted exactly when the
fallback reply yields no truthy JSON value -- when the reply parses to a
truthy JSON value, that value is returned as-is and may contain zero
steps (see the counterexample to the claim as stated). -/
theorem c1_llm_fallback (env : Env) (topic : Str) (opts : GenOptions) (ft : Str)
    (hfail : primaryFails env) (hfb : env.fallbackChat = .ok ft) :
    ∃ r : RoadmapResult,
      generateComprehensiveRoadmap env topic opts = .ok r ∧
      r.methodology = lc "llm-fallback" ∧
      (∀ j, extractJSONPure (some ft) = some j → jsTruthy j = true → r.roadmap = j) ∧
      ((extractJSONPure (some ft) = none ∨
        (∃ j, extractJSONPure (some ft) = some j ∧ jsTruthy j = false)) →
        r.roadmap = fallbackSkeleton topic opts.level ∧ r.totalSteps = 1) ∧
      (∃ step, jget (fallbackSkeleton topic opts.level) (lc "steps") = some (.arr [step]) ∧
        jget step (lc "title") = some (.str (lc "Introduction to " ++ topic)) ∧
        jget step (lc "type") = some (.str (lc "theory")) ∧
        jget step (lc "difficulty") = some (.str opts.level)) := by
  have hskel : ∃ step, jget (fallbackSkeleton topic opts.level) (lc "steps") =
      some (.arr [step]) ∧
      jget step (lc "title") = some (.str (lc "Introduction to " ++ topic)) ∧
      jget step (lc "type") = some (.str (lc "theory")) ∧
      jget step (lc "difficulty") = some (.str opts.level) :=
    ⟨.obj
        [ (lc "week", .num 1), (lc "day", .num 1)
        , (lc "title", .str (lc "Introduction to " ++ topic))
        , (lc "description", .str (lc "Learn the basics of " ++ topic))
        , (lc "duration", .str (lc "5 minutes")), (lc "type", .str (lc "theory"))
        , (lc "concepts", .arr [.str topic]), (lc "resources", .arr [])
        , (lc "optional", .bool false), (lc "difficulty", .str opts.level) ],
      rfl, rfl, rfl, rfl⟩
  have hgen : generateComprehensiveRoadmap env topic opts =
      (match generateFallbackRoadmap env.fallbackChat topic opts.level with
       | .error e => .error e
       | .ok rm =>
         .ok
           { topic := topic, timeframe := opts.timeframe, level := opts.level
           , dailyTimeMinutes := opts.dailyTimeMinutes, roadmap := rm
           , sources := [], methodology := lc "llm-fallback"
           , totalSteps := stepsLenJs rm
           , warning := some (lc "Generated without web sources due to connectivity issues") }) := by
    unfold generateComprehensiveRoadmap
    rcases hfail with ⟨e, he⟩ | ⟨t, ht, hx⟩
    · simp only [he, jsTry]
    · simp only [ht]
      rcases hx with hx | hx <;> simp only [hx, jsTry]
  rw [hgen]
  unfold generateFallbackRoadmap
  simp only [hfb]
  cases hext : extractJSONPure (some ft) with
  | none =>
    refine ⟨_, rfl, rfl, ?_, ?_, hskel⟩
    · intro j hj
      cases hj
    · intro _
      exact ⟨rfl, stepsLenJs_fallbackSkeleton topic opts.level⟩
  | some j =>
    refine ⟨_, rfl, rfl, ?_, ?_, hskel⟩
    · intro j' hj' htr
      injection hj' with hjj
      subst hjj
      show (if jsTruthy j = true then j else fallbackSkeleton topic opts.level) = j
      rw [if_pos htr]
    · rintro (hcase | ⟨j', hj', hfalse⟩)
      · cases hcase
      · injection hj' with hjj
        subst hjj
        constructor
        · show (if jsTruthy j = true then j else fallbackSkeleton topic opts.level) =
            fallbackSkeleton topic opts.level
          rw [if_neg (by intro hc; rw [hfalse] at hc; cases hc)]
        · show stepsLenJs
            (if jsTruthy j = true then j else fallbackSkeleton topic opts.level) = 1
          rw [if_neg (by intro hc; rw [hfalse] at hc; cases hc)]
          exact stepsLenJs_fallbackSkeleton topic opts.level

/-- The environment of the concrete C1 scenarios: live search, every
scrape, and the primary synthesis call all fail; the fallback chat call
returns the given reply. -/
def c1Env (fallbackReply : Str) : Env :=
  { search := .error (lc "getaddrinfo ENOTFOUND api.duckduckgo.com")
  , fetch := fun _ => .error (lc "timeout of 10000ms exceeded")
  , scrapeChat := fun _ => .error (lc "Failed to connect to OpenRouter")
  , primaryChat := .error (lc "Failed to connect to OpenRouter")
  , fallbackChat := .ok fallbackReply }

/-- The generation options of the concrete C1 scenarios. -/
def c1Opts : GenOptions :=
  { timeframe := lc "4-weeks", level := lc "beginner", dailyTimeMinutes := 30
  , focus := lc "practical", includeProjects := true }

/-- Witness for C1: with every web-path effect failing and an unparseable
fallback reply, the roadmap is the one-step static skeleton under the
`llm-fallback` methodology. -/
theorem c1_witness :
    ∃ r : RoadmapResult,
      generateComprehensiveRoadmap (c1Env (lc "no json here")) (lc "python") c1Opts = .ok r ∧
      r.methodology = lc "llm-fallback" ∧
      (∀ j, extractJSONPure (some (lc "no json here")) = some j → jsTruthy j = true →
        r.roadmap = j) ∧
      ((extractJSONPure (some (lc "no json here")) = none ∨
        (∃ j, extractJSONPure (some (lc "no json here")) = some j ∧ jsTruthy j = false)) →
        r.roadmap = fallbackSkeleton (lc "python") c1Opts.level ∧ r.totalSteps = 1) ∧
      (∃ step, jget (fallbackSkeleton (lc "python") c1Opts.level) (lc "steps") =
          some (.arr [step]) ∧
        jget step (lc "title") = some (.str (lc "Introduction to " ++ lc "python")) ∧
        jget step (lc "type") = some (.str (lc "theory")) ∧
        jget step (lc "difficulty") = some (.str c1Opts.level)) :=
  c1_llm_fallback (c1Env (lc "no json here")) (lc "python") c1Opts (lc "no json here")
    (Or.inl ⟨lc "Failed to connect to OpenRouter", rfl⟩) rfl

/-- Counterexample for C1 as stated: the web-enhanced path fails, the
fallback synthesis returns parseable JSON without any `steps`, and the
function returns an `llm-fallback` result whose roadmap has zero steps --
not at least one, and not the static skeleton. -/
theorem c1_counterexample :
    generateComprehensiveRoadmap (c1Env (lc "\x7b\"overview\": 1\x7d")) (lc "python") c1Opts =
      .ok
        { topic := lc "python", timeframe := lc "4-weeks", level := lc "beginner"
        , dailyTimeMinutes := 30
        , roadmap := Json.obj [(lc "overview", Json.num 1)]
        , sources := [], methodology := lc "llm-fallback", totalSteps := 0
        , warning := some (lc "Generated without web sources due to connectivity issues") } ∧
    stepsLenJs (Json.obj [(lc "overview", Json.num 1)]) = 0 :=
  ⟨rfl, rfl⟩
